import Mathlib

/-!
Verification of the JLS container library (`src/writer.c`, `src/reader.c`)
against its natural-language specification.

The development shallowly embeds the C code: machine integers become `Nat`
(the code never relies on wrap-around in the fragments modelled here; sizes
and offsets are non-negative) or `Int` where C performs signed arithmetic,
byte buffers become `List Nat` (each element a byte value), fallible calls
return `Except JlsError` or `Option`, and the writer's mutable state becomes
an explicit `WrState` record threaded through the operations.
-/

namespace Jls

/-- Error codes used by the two modules (from `jls/ec.h`, which appears in
`src/writer.c` and `src/reader.c` only through its `JLS_ERROR_*` names). -/
inductive JlsError where
  | parameterInvalid
  | notFound
  | alreadyExists
  | notSupported
  | notEnoughMemory
  | empty
  | tooBig
  | io
  deriving DecidableEq, Repr

/-!
Format constants.

Header `jls/format.h` is not part of the sources; the constants below are
modelled from the spec (§6 "EXTERNAL INTERFACES" and §3). Where the spec
fixes a numeric value (track types, track chunk kinds, storage types,
`SOURCE_COUNT`, `SIGNAL_COUNT`, `SUMMARY_LEVEL_COUNT`, the track tag
encoding `0x20 | track_type<<3 | chunk_kind`) that value is used; where it
does not (the scalar tags, the signal-type and data-type enumerators) an
arbitrary distinct value is chosen, and no theorem depends on the choice.
-/

/-- Modelled from the spec: `JLS_SOURCE_COUNT` = 256 (§6). -/
def SOURCE_COUNT : Nat := 256

/-- Modelled from the spec: `JLS_SIGNAL_COUNT` = 256 (§6). -/
def SIGNAL_COUNT : Nat := 256

/-- Modelled from the spec: `JLS_SUMMARY_LEVEL_COUNT` = 8 (§6). -/
def SUMMARY_LEVEL_COUNT : Nat := 8

/-- Scratch-buffer size `BUFFER_SIZE`, `src/writer.c:28`. -/
def BUFFER_SIZE : Nat := 1 <<< 20

/-- Minimum `SUMMARY_DECIMATE_FACTOR_MIN`, `src/writer.c:29`. -/
def SUMMARY_DECIMATE_FACTOR_MIN : Nat := 10

/-- Minimum `DECIMATIONS_PER_CHUNK_MIN`, `src/writer.c:30`. -/
def DECIMATIONS_PER_CHUNK_MIN : Nat := 1000

/-- Modelled from the spec: `enum jls_track_type_e`, FSR=0, VSR=1,
ANNOTATION=2, UTC=3 (§6). `ANNO` abbreviates ANNOTATION throughout. -/
def TRACK_TYPE_FSR : Nat := 0

/-- Modelled from the spec: track type VSR = 1 (§6). -/
def TRACK_TYPE_VSR : Nat := 1

/-- Modelled from the spec: track type ANNOTATION = 2 (§6). -/
def TRACK_TYPE_ANNO : Nat := 2

/-- Modelled from the spec: track type UTC = 3 (§6). -/
def TRACK_TYPE_UTC : Nat := 3

/-- Modelled from the spec: `enum jls_track_chunk_e`, DEF=0, HEAD=1, DATA=2,
INDEX=3, SUMMARY=4 (§6). -/
def TRACK_CHUNK_DEF : Nat := 0

/-- Modelled from the spec: track chunk kind HEAD = 1 (§6). -/
def TRACK_CHUNK_HEAD : Nat := 1

/-- Modelled from the spec: track chunk kind DATA = 2 (§6). -/
def TRACK_CHUNK_DATA : Nat := 2

/-- Modelled from the spec: the track-chunk tag encoding
`0x20 | (track_type << 3) | chunk_kind` (§6); this is also literally the
expression used at `src/writer.c:347` and `src/writer.c:371`. -/
def trackTag (track_type chunk_kind : Nat) : Nat :=
  0x20 ||| ((track_type &&& 3) <<< 3) ||| chunk_kind

/-- Modelled from the spec: scalar chunk tag for user-data chunks (§6). The
exact numeric value lives in `jls/format.h`; only distinctness matters. -/
def JLS_TAG_USER_DATA : Nat := 1

/-- Modelled from the spec: scalar chunk tag for source definitions (§6). -/
def JLS_TAG_SOURCE_DEF : Nat := 2

/-- Modelled from the spec: scalar chunk tag for signal definitions (§6). -/
def JLS_TAG_SIGNAL_DEF : Nat := 3

/-- Tag `JLS_TAG_TRACK_FSR_DATA` (= 0x22 under the spec's encoding). -/
def JLS_TAG_TRACK_FSR_DATA : Nat := trackTag TRACK_TYPE_FSR TRACK_CHUNK_DATA

/-- Tag `JLS_TAG_TRACK_VSR_DATA` (= 0x2a under the spec's encoding). -/
def JLS_TAG_TRACK_VSR_DATA : Nat := trackTag TRACK_TYPE_VSR TRACK_CHUNK_DATA

/-- Tag `JLS_TAG_TRACK_ANNOTATION_DATA` (= 0x32 under the spec's encoding). -/
def JLS_TAG_TRACK_ANNO_DATA : Nat := trackTag TRACK_TYPE_ANNO TRACK_CHUNK_DATA

/-- Tag `JLS_TAG_TRACK_UTC_DATA` (= 0x3a under the spec's encoding). -/
def JLS_TAG_TRACK_UTC_DATA : Nat := trackTag TRACK_TYPE_UTC TRACK_CHUNK_DATA

/-- Modelled from the spec: `enum jls_signal_type_e`; FSR and VSR are the two
legal values (§3). The numeric values are not fixed by the sources, only
their distinctness is used. -/
def SIGNAL_TYPE_FSR : Nat := 0

/-- Modelled from the spec: the VSR signal type enumerator. -/
def SIGNAL_TYPE_VSR : Nat := 1

/-- Modelled from the spec: `JLS_DATATYPE_F32`, the only supported data
type. The numeric value is not fixed by the sources. -/
def DATATYPE_F32 : Nat := 4

/-- Modelled from the spec: storage type INVALID = 0 (§6). -/
def STORAGE_INVALID : Nat := 0

/-- Modelled from the spec: storage type BINARY = 1 (§6). -/
def STORAGE_BINARY : Nat := 1

/-- Modelled from the spec: storage type STRING = 2 (§6). -/
def STORAGE_STRING : Nat := 2

/-- Modelled from the spec: storage type JSON = 3 (§6). -/
def STORAGE_JSON : Nat := 3

/-!
String encoding in the writer: `buf_add_str`, `src/writer.c:208-222`.

The C function receives a pointer into memory; it reads the bytes of the
string and, because of the order of its copy and its test, can also read the
bytes that follow the string's nul terminator. The embedding therefore takes
the whole byte stream `mem : Nat → Nat` starting at the pointer (`mem 0` is
`cstr[0]`) and the remaining room in the scratch buffer up to `end - 2`
(`room` = `(end - 2) - cur`), and returns `none` for the
`NOT_ENOUGH_MEMORY` exit.
-/

/-- Loop of `buf_add_str` (`src/writer.c:212-219`): copy `*cstr++`, then
test the byte now pointed at; if it is nul append `{0x00, 0x1F}` and
return. -/
def buf_add_str_go (mem : Nat → Nat) : Nat → Nat → List Nat → Option (List Nat)
  | _, 0, _ => none
  | i, room + 1, out =>
    let out' := out ++ [mem i]
    if mem (i + 1) = 0 then some (out' ++ [0, 0x1f])
    else buf_add_str_go mem (i + 1) room out'

/-- Function `buf_add_str` (`src/writer.c:208-222`): the bytes it appends to
the scratch buffer, given the memory at the string pointer and the room
left below `end - 2`. -/
def buf_add_str (mem : Nat → Nat) (room : Nat) : Option (List Nat) :=
  buf_add_str_go mem 0 room []

/-- Byte stream at a pointer to the C string whose non-nul bytes are `s`,
followed by the terminating nul and then whatever memory `rest` follows. -/
def memOfString (s : List Nat) (rest : Nat → Nat) : Nat → Nat :=
  fun i => if h : i < s.length then s.get ⟨i, h⟩ else
    if i = s.length then 0 else rest (i - s.length - 1)

/-- Encoding the spec describes (§4.2 "String encoding"): the string's
characters, then the two-byte terminator `{0x00, 0x1F}`, and nothing
else. -/
def strField (s : List Nat) : List Nat := s ++ [0, 0x1f]

/-- Helper for `buf_add_str_eq_strField`, generalised over the start index
and the accumulated output. -/
theorem buf_add_str_go_eq (s : List Nat) :
    ∀ (mem : Nat → Nat) (i room : Nat) (out : List Nat),
    s ≠ [] → (∀ b ∈ s, b ≠ 0) → s.length ≤ room →
    (∀ j (h : j < s.length), mem (i + j) = s.get ⟨j, h⟩) →
    mem (i + s.length) = 0 →
    buf_add_str_go mem i room out = some (out ++ strField s) := by
  induction s with
  | nil => intro _ _ _ _ hne; exact absurd rfl hne
  | cons b t ih =>
    intro mem i room out _ hnz hlen hmem hnul
    obtain ⟨room, rfl⟩ : ∃ r, room = r + 1 := by
      refine ⟨room - 1, ?_⟩
      simp only [List.length_cons] at hlen
      omega
    have hmi : mem i = b := by
      have := hmem 0 (by simp)
      simpa using this
    cases t with
    | nil =>
      have h1 : mem (i + 1) = 0 := by simpa using hnul
      simp [buf_add_str_go, h1, hmi, strField]
    | cons c u =>
      have h1 : mem (i + 1) = c := by
        have := hmem 1 (by simp)
        simpa using this
      have hc : c ≠ 0 := hnz c (by simp)
      have hrec := ih mem (i + 1) room (out ++ [mem i])
        (by simp) (fun x hx => hnz x (by simp [hx]))
        (by simp only [List.length_cons] at hlen ⊢; omega)
        (fun j hj => by
          have := hmem (j + 1) (by simpa using Nat.succ_lt_succ hj)
          simpa [Nat.add_assoc, Nat.add_comm 1 j] using this)
        (by
          have hix : i + 1 + (c :: u).length = i + (b :: c :: u).length := by
            simp only [List.length_cons]; omega
          rw [hix]; exact hnul)
      have hne1 : ¬ mem (i + 1) = 0 := by rw [h1]; exact hc
      simp only [buf_add_str_go, if_neg hne1]
      rw [hrec]
      simp [hmi, strField]

/-- For a non-empty nul-free string with enough room, `buf_add_str` emits
exactly `strField s` — the encoding the spec describes. (The empty string
is the subject of claim C5: there the loop copies the terminator itself and
reads past the end of the string.) -/
theorem buf_add_str_eq_strField (s : List Nat) (rest : Nat → Nat) (room : Nat)
    (hne : s ≠ []) (hnz : ∀ b ∈ s, b ≠ 0) (hlen : s.length ≤ room) :
    buf_add_str (memOfString s rest) room = some (strField s) := by
  have := buf_add_str_go_eq s (memOfString s rest) 0 room [] hne hnz hlen
    (fun j h => by simp [memOfString, h])
    (by simp [memOfString])
  simpa [buf_add_str] using this

/-!
Sample ingestion: the while-loop of `jls_wr_fsr_f32`, `src/writer.c:592-628`.

The loop copies `block_length = min(data_length, b->length - b->offset)`
samples from `data` into the per-signal sample buffer. Crucially, the source
never advances `data` nor decrements `data_length`; and when the buffer
fills it writes one level-0 data chunk and `return`s from inside the loop.
The embedding records the observable quantities: the final buffer offset,
whether a data chunk was emitted, the value `data_length` still holds at the
return, and how many leading input samples were ever read (the pointer never
moves, so every iteration reads `data[0 .. block_length)`).
-/

/-- Observable outcome of one `jls_wr_fsr_f32` call's loop. -/
structure FsrLoopResult where
  bufOff : Nat
  emitted : Bool
  dataLenAtReturn : Nat
  maxRead : Nat
  deriving DecidableEq, Repr

/-- Loop body of `jls_wr_fsr_f32` (`src/writer.c:592-628`). `fuel` only
bounds the number of iterations so that the definition is structural; the
wrapper `fsrLoop` supplies `bufLen + 1`, which the loop can never exhaust,
because every iteration that does not return increases `bufOff` by at least
one while `bufOff < bufLen`. -/
def fsrLoopGo (bufLen : Nat) : Nat → Nat → Nat → Nat → FsrLoopResult
  | 0, bufOff, dataLen, maxRead => ⟨bufOff, false, dataLen, maxRead⟩
  | fuel + 1, bufOff, dataLen, maxRead =>
    if dataLen = 0 then ⟨bufOff, false, dataLen, maxRead⟩
    else
      let block := min dataLen (bufLen - bufOff)
      let off' := bufOff + block
      let maxRead' := max maxRead block
      if bufLen ≤ off' then ⟨off', true, dataLen, maxRead'⟩
      else fsrLoopGo bufLen fuel off' dataLen maxRead'

/-- Loop of `jls_wr_fsr_f32` (`src/writer.c:592-628`) on a buffer of
capacity `bufLen` whose current fill is `bufOff`, called with `data_length`
input samples. -/
def fsrLoop (bufLen bufOff dataLen : Nat) : FsrLoopResult :=
  fsrLoopGo bufLen (bufLen + 1) bufOff dataLen 0

/-!
Hierarchical seek in the reader: `seek`, `src/reader.c:566-615`.
-/

/-- Step size computed at `src/reader.c:591-594`: `samples_per_data`
multiplied by `entries_per_summary` once for each `k` in `1 ≤ k < lvl`. -/
def seek_step_size (samples_per_data entries_per_summary lvl : Nat) : Nat :=
  samples_per_data * entries_per_summary ^ (lvl - 1)

/-- Child index computed at `src/reader.c:606`:
`idx = (sample_id - chunk_timestamp) / step_size`, 64-bit signed division
(C truncates toward zero, which is `Int.tdiv`). The offset then read at
`src/reader.c:610` is `payload[2 + idx]`, with no bounds check. -/
def seek_index (sample_id chunk_timestamp step_size : Int) : Int :=
  Int.tdiv (sample_id - chunk_timestamp) step_size

/-!
Little-endian scalar serialization in the writer's scratch buffer
(`src/writer.c:239-285`) and the matching parsers of the reader
(`src/reader.c:155-234`). Bytes are `Nat` values below 256.
-/

/-- Function `buf_wr_u16` (`src/writer.c:248-256`): two little-endian
bytes. -/
def u16le (v : Nat) : List Nat := [v % 256, v / 256 % 256]

/-- Function `buf_wr_u32` (`src/writer.c:258-268`): four little-endian
bytes. -/
def u32le (v : Nat) : List Nat :=
  [v % 256, v / 2 ^ 8 % 256, v / 2 ^ 16 % 256, v / 2 ^ 24 % 256]

/-- Function `buf_wr_u64` (`src/writer.c:270-285`). The source emits NINE
bytes: bytes 0-3 little-endian, then byte `(value >> 24) & 0xff` a second
time, then bytes 4-7. The duplicated byte is faithful to the source. -/
def u64le9 (v : Nat) : List Nat :=
  [v % 256, v / 2 ^ 8 % 256, v / 2 ^ 16 % 256, v / 2 ^ 24 % 256,
   v / 2 ^ 24 % 256, v / 2 ^ 32 % 256, v / 2 ^ 40 % 256, v / 2 ^ 48 % 256,
   v / 2 ^ 56 % 256]

/-- Parser `payload_parse_u8` (`src/reader.c:155-162`). Returns the value
and the remaining payload; `JLS_ERROR_EMPTY` when out of bytes. -/
def payload_parse_u8 : List Nat → Except JlsError (Nat × List Nat)
  | [] => .error .empty
  | b :: rest => .ok (b, rest)

/-- Parser `payload_parse_u16` (`src/reader.c:164-172`). -/
def payload_parse_u16 : List Nat → Except JlsError (Nat × List Nat)
  | b0 :: b1 :: rest => .ok (b0 + b1 * 256, rest)
  | _ => .error .empty

/-- Parser `payload_parse_u32` (`src/reader.c:174-184`). -/
def payload_parse_u32 : List Nat → Except JlsError (Nat × List Nat)
  | b0 :: b1 :: b2 :: b3 :: rest =>
    .ok (b0 + b1 * 2 ^ 8 + b2 * 2 ^ 16 + b3 * 2 ^ 24, rest)
  | _ => .error .empty

/-- Helper `payload_skip` (`src/reader.c:147-153`): skip `count` bytes,
`JLS_ERROR_EMPTY` if fewer remain. -/
def payload_skip (count : Nat) (p : List Nat) : Except JlsError (List Nat) :=
  if count ≤ p.length then .ok (p.drop count) else .error .empty

/-- Parser `payload_parse_str` (`src/reader.c:206-234`): copy bytes into the
string arena until a nul; consume the nul, and also the following byte when
it is the 0x1F unit separator; return the string (its bytes before the
nul). `JLS_ERROR_EMPTY` when the payload ends before a nul. The string
arena's buffer-split fix-up (`src/reader.c:211-219`) only relocates the
bytes in memory and is not represented. -/
def payload_parse_str : List Nat → Except JlsError (List Nat × List Nat)
  | [] => .error .empty
  | 0 :: rest =>
    .ok ([], if rest.head? = some 0x1f then rest.tail else rest)
  | b :: rest =>
    match payload_parse_str rest with
    | .ok (s, r) => .ok (b :: s, r)
    | .error e => .error e

/-!
Signal definitions: the writer's payload (`jls_wr_signal_def`,
`src/writer.c:466-479`) and the reader's parse (`handle_signal_def`,
`src/reader.c:313-339`).
-/

/-- Fields of `struct jls_signal_def_s` that `src/writer.c` reads or
writes. (The reader additionally consumes `samples_per_data`,
`sample_decimate_factor` and `entries_per_summary` slots that the writer
never serializes — the subject of claim C3.) Strings are byte lists. -/
structure SignalDefW where
  signal_id : Nat := 0
  source_id : Nat := 0
  signal_type : Nat := 0
  data_type : Nat := 0
  sample_rate : Nat := 0
  decimations_per_chunk : Nat := 0
  summary_decimate_factor : Nat := 0
  utc_rate_auto : Nat := 0
  name : List Nat := []
  si_units : List Nat := []
  deriving DecidableEq, Repr

/-- Payload built by `jls_wr_signal_def` at `src/writer.c:467-479`, applied
to the stored (clamped, VSR-sample-rate-zeroed) definition `d`. The source
reads the unclamped fields from `signal->…` and the clamped ones from
`info->signal_def.…`; those coincide with `d`'s fields because the store
(`src/writer.c:415`) copies `*signal` and then only modifies `sample_rate`,
`summary_decimate_factor` and `decimations_per_chunk`. String fields use
`strField`; by `buf_add_str_eq_strField` this is the source's `buf_add_str`
whenever the string is non-empty and nul-free. -/
def signal_def_payload (d : SignalDefW) : List Nat :=
  u16le d.source_id ++ [d.signal_type % 256] ++ [0] ++
  u32le d.data_type ++ u32le d.sample_rate ++
  u32le d.summary_decimate_factor ++ u32le d.decimations_per_chunk ++
  u32le d.utc_rate_auto ++ List.replicate (4 + 64) 0 ++
  strField d.name ++ strField d.si_units

/-- Fields of `struct jls_signal_def_s` as filled in by the reader's
`handle_signal_def` (`src/reader.c:319-333`). -/
structure RdSignalDef where
  signal_id : Nat := 0
  source_id : Nat := 0
  signal_type : Nat := 0
  data_type : Nat := 0
  sample_rate : Nat := 0
  samples_per_data : Nat := 0
  sample_decimate_factor : Nat := 0
  entries_per_summary : Nat := 0
  summary_decimate_factor : Nat := 0
  utc_rate_auto : Nat := 0
  name : List Nat := []
  si_units : List Nat := []
  deriving DecidableEq, Repr

/-- Parser `handle_signal_def` (`src/reader.c:313-339`): u16 source_id, u8
signal_type, skip 1 reserved byte, seven u32 fields, skip 64 reserved
bytes, then the two strings. (The subsequent `signal_validate` call decides
whether the record is marked valid; the fields parsed are as returned
here either way.) -/
def handle_signal_def (chunk_meta : Nat) (payload : List Nat) :
    Except JlsError RdSignalDef := do
  if SIGNAL_COUNT ≤ chunk_meta then
    throw .parameterInvalid
  let (source_id, p) ← payload_parse_u16 payload
  let (signal_type, p) ← payload_parse_u8 p
  let p ← payload_skip 1 p
  let (data_type, p) ← payload_parse_u32 p
  let (sample_rate, p) ← payload_parse_u32 p
  let (samples_per_data, p) ← payload_parse_u32 p
  let (sample_decimate_factor, p) ← payload_parse_u32 p
  let (entries_per_summary, p) ← payload_parse_u32 p
  let (summary_decimate_factor, p) ← payload_parse_u32 p
  let (utc_rate_auto, p) ← payload_parse_u32 p
  let p ← payload_skip 64 p
  let (name, p) ← payload_parse_str p
  let (si_units, _) ← payload_parse_str p
  return { signal_id := chunk_meta, source_id, signal_type, data_type,
           sample_rate, samples_per_data, sample_decimate_factor,
           entries_per_summary, summary_decimate_factor, utc_rate_auto,
           name, si_units }

/-!
Claims settled on the pure fragments. The writer state machine and the
claims that need it follow further below.
-/

/-- Claim C2 (code_bug): the claim says every `jls_wr_fsr_f32` call
consumes its whole input, looping until `data_length == 0`, and never
returns success with input samples unconsumed. On a fresh buffer of the
minimum capacity 10000 and a call with `data_length = 20000`, the loop
copies the first 10000 input samples, fills the buffer, writes one data
chunk, and returns success from inside the loop (`src/writer.c:620`) with
`data_length` still 20000 — `data` and `data_length` are never advanced —
so the last 10000 input samples are never read. -/
theorem c2_fsr_f32_early_return :
    fsrLoop 10000 0 20000 =
      { bufOff := 10000, emitted := true, dataLenAtReturn := 20000,
        maxRead := 10000 } ∧
    (fsrLoop 10000 0 20000).dataLenAtReturn ≠ 0 ∧
    (fsrLoop 10000 0 20000).maxRead < 20000 := by
  refine ⟨by decide, by decide, by decide⟩

/-- Claim C3 (code_bug): writing a signal definition and parsing it back
does not return the same definition. Concretely, for the stored definition
with `summary_decimate_factor = 100`, `decimations_per_chunk = 10000`,
`name = "abcd"`, `si_units = "u"`: the writer serializes five u32 fields
plus 68 reserved bytes (`src/writer.c:468-476`) while the reader parses
seven u32 fields plus 64 reserved bytes (`src/reader.c:321-331`), so the
reader's `samples_per_data` slot reads the written
`summary_decimate_factor`, its `summary_decimate_factor` reads reserved
zeros, and its 64-byte skip swallows the first four bytes of the name,
leaving `name = ""`. -/
theorem c3_signal_def_roundtrip_mismatch :
    handle_signal_def 1 (signal_def_payload
      { signal_id := 1, source_id := 1, signal_type := 0, data_type := 4,
        sample_rate := 1000, decimations_per_chunk := 10000,
        summary_decimate_factor := 100, utc_rate_auto := 0,
        name := [97, 98, 99, 100], si_units := [117] }) =
      .ok { signal_id := 1, source_id := 1, signal_type := 0, data_type := 4,
            sample_rate := 1000, samples_per_data := 100,
            sample_decimate_factor := 10000, entries_per_summary := 0,
            summary_decimate_factor := 0, utc_rate_auto := 0,
            name := [], si_units := [117] } ∧
    (100 : Nat) ≠ 0 ∧ ([97, 98, 99, 100] : List Nat) ≠ [] := by
  refine ⟨by rfl, by decide, by decide⟩

/-- Claim C4, counterexample: the claim says the reader's `seek` clamps
`idx = (sample_id − chunk_timestamp) / step` into `[0, entry_count)` before
reading `payload[2 + idx]`, for every `sample_id`. The code
(`src/reader.c:606-610`) performs no clamp: with `sample_id = 0`,
`chunk_timestamp = 1000`, `step = 100` and an index chunk holding
`entry_count = 1` entry, the computed index is −10, outside `[0, 1)`. -/
theorem c4_seek_index_unclamped_cex :
    seek_index 0 1000 100 = -10 ∧
    ¬ (0 ≤ seek_index 0 1000 100 ∧ seek_index 0 1000 100 < 1) := by
  refine ⟨by decide, by decide⟩

/-- Claim C4, amended: `seek` computes `idx = (sample_id − chunk_timestamp)
/ step` with C signed 64-bit division (truncation toward zero) and applies
no bounds clamp before reading `payload[2 + idx]`; the index lies in
`[0, entry_count)` exactly when `chunk_timestamp − step < sample_id <
chunk_timestamp + entry_count·step`. In particular the `step − 1` sample
ids just below the chunk's start also truncate to index 0, while every
`sample_id` at or below `chunk_timestamp − step`, or at or beyond
`chunk_timestamp + entry_count·step`, yields an out-of-range index. -/
theorem c4_seek_index_in_range (sample_id chunk_timestamp entry_count step_size : Int)
    (hstep : 0 < step_size) (hcnt : 0 < entry_count) :
    (0 ≤ seek_index sample_id chunk_timestamp step_size ∧
      seek_index sample_id chunk_timestamp step_size < entry_count) ↔
    (chunk_timestamp - step_size < sample_id ∧
      sample_id < chunk_timestamp + entry_count * step_size) := by
  unfold seek_index
  have hns : 0 < entry_count * step_size := mul_pos hcnt hstep
  rcases le_or_lt 0 (sample_id - chunk_timestamp) with hd0 | hd0
  · rw [Int.tdiv_eq_ediv hd0 (le_of_lt hstep)]
    constructor
    · rintro ⟨-, hlt⟩
      have h := (Int.ediv_lt_iff_lt_mul hstep).mp hlt
      exact ⟨by omega, by omega⟩
    · rintro ⟨-, hhi⟩
      exact ⟨Int.ediv_nonneg hd0 (le_of_lt hstep),
        (Int.ediv_lt_iff_lt_mul hstep).mpr (by omega)⟩
  · have hnd : 0 ≤ chunk_timestamp - sample_id := by omega
    have hneg : (sample_id - chunk_timestamp).tdiv step_size
        = -((chunk_timestamp - sample_id) / step_size) := by
      rw [← Int.tdiv_eq_ediv hnd (le_of_lt hstep), ← Int.neg_tdiv, neg_sub]
    rw [hneg]
    set q := (chunk_timestamp - sample_id) / step_size with hq
    have hdvnn : 0 ≤ q := Int.ediv_nonneg hnd (le_of_lt hstep)
    constructor
    · rintro ⟨h0, -⟩
      have hz : q = 0 := by omega
      have heq := Int.ediv_add_emod (chunk_timestamp - sample_id) step_size
      rw [← hq, hz, mul_zero, zero_add] at heq
      have hmod := Int.emod_lt_of_pos (chunk_timestamp - sample_id) hstep
      rw [heq] at hmod
      exact ⟨by omega, by omega⟩
    · rintro ⟨hlo, -⟩
      have hz : q = 0 := by
        rw [hq]
        exact Int.ediv_eq_zero_of_lt hnd (by omega)
      rw [hz]
      exact ⟨by omega, by omega⟩

/-- Witness for `c4_seek_index_in_range` at `sample_id = 150`,
`chunk_timestamp = 0`, `entry_count = 3`, `step = 100`: index 1 is in range
and 150 lies strictly between −100 and 300. -/
theorem c4_seek_index_in_range_witness :
    ((0 : Int) < 100 ∧ (0 : Int) < 3) ∧
    ((0 ≤ seek_index 150 0 100 ∧ seek_index 150 0 100 < 3) ↔
      ((0 : Int) - 100 < 150 ∧ (150 : Int) < 0 + 3 * 100)) :=
  ⟨by decide, c4_seek_index_in_range 150 0 3 100 (by decide) (by decide)⟩

/-- Claim C5 (code_bug): the claim says every string written into a chunk
payload — including the empty string — is emitted as the string's
characters followed by exactly `{0x00, 0x1F}`. For the empty string the
loop of `buf_add_str` copies the terminating nul itself as the first byte
(`src/writer.c:213` runs before the test at `src/writer.c:214`), then
examines the byte after the string's storage; when that byte is 0 (the
model memory here is all zeros) the function emits `{0x00, 0x00, 0x1F}` —
three bytes, not the specified two. -/
theorem c5_empty_string_encoding_bug :
    buf_add_str (memOfString [] (fun _ => 0)) 1000 = some [0, 0, 0x1f] ∧
    strField [] = [0, 0x1f] ∧
    ([0, 0, 0x1f] : List Nat) ≠ [0, 0x1f] := by
  refine ⟨?_, by decide, by decide⟩
  decide

/-!
The writer state machine (`src/writer.c`).

The raw layer (`jls/raw.h`) is not part of the sources; its operations are
modelled from the spec (§4.1): a write appends header plus payload at the
current position and returns the chunk's start offset, a header write in
place overwrites only the header region of an existing chunk. The model
keeps the file as a map from chunk start offset to chunk header (payload
bytes do not participate in any claim about the machine) plus a ghost map
`listOf` recording, for each written chunk, the logical list it was
appended to — this only annotates, it never influences, the behaviour.
-/

/-- Chunk header, `struct jls_chunk_header_s` (spec §3). The two CRC fields
are computed by the raw layer and the reserved byte is always zero; they are
not represented. Offsets are byte offsets from file start, 0 = "none". -/
structure ChunkHdr where
  item_next : Nat := 0
  item_prev : Nat := 0
  tag : Nat := 0
  chunk_meta : Nat := 0
  payload_length : Nat := 0
  payload_prev_length : Nat := 0
  deriving DecidableEq, Repr

/-- Chunk descriptor, `struct chunk_s` of `src/writer.c:33-36`: a cached
header plus the chunk's file offset. -/
structure ChunkDesc where
  hdr : ChunkHdr := {}
  offset : Nat := 0
  deriving DecidableEq, Repr

/-- Ghost identity of the logical doubly-linked list a chunk belongs to
(spec §3 "Logical lists"): sources, the signal-definition list (signal_def,
track def and track head chunks), user data, and one data list per
`(signal_id, track index)`. The track index is the value the source uses to
index `signal_info_s.tracks` — `jls_wr_fsr_f32` indexes with
`info->track_type`, which `jls_wr_signal_def` sets to the data tag value
(`src/writer.c:428,438`). -/
inductive ListId where
  | sources
  | signals
  | userData
  | trackData (signal_id track_idx : Nat)
  deriving DecidableEq, Repr

/-- Per-track writer state, `struct track_info_s` (`src/writer.c:38-47`)
without the redundant `signal_id`/`track_type` fields (they are the indices
into `signal_info` and `tracks`). `indexOff` models the `index[8]` chunk
offsets: no code path in the sources ever writes them, so they stay 0;
`track_wr_head` reads them to build the head payload. The `summary[8]`
array is never read or written and is omitted. -/
structure TrackState where
  defC : ChunkDesc := {}
  headC : ChunkDesc := {}
  dataC : ChunkDesc := {}
  indexOff : Nat → Nat := fun _ => 0

/-- Declared length of the per-signal `tracks` array:
`struct track_info_s tracks[4]` (`src/writer.c:60`), meant to be indexed by
`enum jls_track_type_e` (values 0-3). -/
def TRACKS_COUNT : Nat := 4

/-- Per-signal writer state, `struct signal_info_s` (`src/writer.c:56-67`).
The sample buffer keeps only its length and fill offset (`sample_buffer_s`,
`src/writer.c:49-54`); the float contents participate in no claim. `tracks`
is a total function because the source indexes it out of bounds with the
data tag value (`tracks[info->track_type]`, `src/writer.c:609,620`). This
is an idealization: it grants the out-of-bounds index a descriptor slot of
its own, whereas in the C program the access lands past the four-element
array (`TRACKS_COUNT`) and aliases unrelated memory — see claim C9. -/
structure SignalInfo where
  chunkDef : ChunkDesc := {}
  sigDef : SignalDefW := {}
  tracks : Nat → TrackState := fun _ => {}
  bufLen : Nat := 0
  bufOff : Nat := 0
  data_tag : Nat := 0
  summary_tag : Nat := 0
  index_tag : Nat := 0
  track_type : Nat := 0

/-- Fields of `struct jls_source_def_s` (used at `src/writer.c:300-337`). -/
structure SourceDefC where
  source_id : Nat := 0
  name : List Nat := []
  vendor : List Nat := []
  model : List Nat := []
  version : List Nat := []
  serial_number : List Nat := []
  deriving DecidableEq, Repr

/-- Writer state, `struct jls_wr_s` (`src/writer.c:75-87`) plus the file
built so far (the raw layer's view) and the ghost list map. -/
structure WrState where
  pos : Nat
  file : Nat → Option ChunkHdr
  listOf : Nat → Option ListId
  sourceInfo : Nat → ChunkDesc
  sourceMra : ChunkDesc
  signalInfo : Nat → SignalInfo
  signalMra : ChunkDesc
  userDataMra : ChunkDesc
  payloadPrevLength : Nat

/-- Result of a raw chunk write. -/
structure RawWrRes where
  c : ChunkDesc
  st : WrState

/-- Modelled from the spec (§4.1): `jls_raw_wr` writes header and payload
contiguously at the current position and advances past them. The first
chunk sits after the fixed file header; 32 bytes are used for both the file
header and the chunk header size (the exact sizes are immaterial — only
that offsets are positive and strictly increasing matters). -/
def raw_chunk_wr (st : WrState) (l : ListId) (hdr : ChunkHdr) : RawWrRes :=
  let off := st.pos
  { c := { hdr := hdr, offset := off },
    st := { st with
      pos := off + 32 + hdr.payload_length,
      file := fun o => if o = off then some hdr else st.file o,
      listOf := fun o => if o = off then some l else st.listOf o } }

/-- Result of `update_mra`. -/
structure MraRes where
  mra : ChunkDesc
  st : WrState

/-- Function `update_mra` (`src/writer.c:288-298`): if a most-recently-added
chunk exists, set its cached header's `item_next` to the new chunk's offset
and rewrite that header in place (seek, `jls_raw_wr_header`, seek back);
then the new chunk becomes the MRA. -/
def update_mra (st : WrState) (mra upd : ChunkDesc) : MraRes :=
  if mra.offset ≠ 0 then
    let hdr' := { mra.hdr with item_next := upd.offset }
    { mra := upd,
      st := { st with
        file := fun o => if o = mra.offset then some hdr' else st.file o } }
  else { mra := upd, st := st }

/-- Result of a write followed by the MRA patch. -/
structure WrLinkRes where
  c : ChunkDesc
  mra : ChunkDesc
  st : WrState

/-- Write a chunk and link it: the `jls_raw_wr` + `update_mra` pattern every
list append in `src/writer.c` follows. -/
def wr_and_link (st : WrState) (l : ListId) (mra : ChunkDesc) (hdr : ChunkHdr) :
    WrLinkRes :=
  let r := raw_chunk_wr st l hdr
  let m := update_mra r.st mra r.c
  { c := r.c, mra := m.mra, st := m.st }

/-- Payload length of a source-definition chunk (`src/writer.c:313-320`):
64 reserved bytes then the five strings. String fields are counted through
`strField` (see `buf_add_str_eq_strField`); the per-call room checks of the
`buf_add_*` helpers collapse to the single bound tested by the caller of
this function. -/
def sourcePayloadLen (source : SourceDefC) : Nat :=
  64 + (strField source.name).length + (strField source.vendor).length +
  (strField source.model).length + (strField source.version).length +
  (strField source.serial_number).length

/-- Function `jls_wr_source_def` (`src/writer.c:300-337`). -/
def jls_wr_source_def (st : WrState) (source : SourceDefC) :
    Except JlsError WrState :=
  if SOURCE_COUNT ≤ source.source_id then .error .parameterInvalid
  else if (st.sourceInfo source.source_id).offset ≠ 0 then .error .alreadyExists
  else
    let payload_length := sourcePayloadLen source
    if BUFFER_SIZE < payload_length then .error .notEnoughMemory
    else
      let hdr : ChunkHdr :=
        { item_next := 0, item_prev := st.sourceMra.offset,
          tag := JLS_TAG_SOURCE_DEF, chunk_meta := source.source_id,
          payload_length := payload_length,
          payload_prev_length := st.payloadPrevLength }
      let r := wr_and_link st .sources st.sourceMra hdr
      .ok { r.st with
        sourceInfo := fun i => if i = source.source_id then r.c
          else r.st.sourceInfo i,
        sourceMra := r.mra,
        payloadPrevLength := payload_length }

/-- Model of `strlen` on a byte list (the bytes up to the first nul). -/
def strlenModel (data : List Nat) : Nat :=
  (data.takeWhile (fun b => b ≠ 0)).length

/-- Function `jls_wr_user_data` (`src/writer.c:513-556`). `dataIsNull`
models `data == NULL` (then `data` is `[]`); the first guard is the
source's `if (data_size & !data)` — a bitwise AND of the size with the
logical negation of the pointer, kept faithfully (claim C8). -/
def jls_wr_user_data (st : WrState) (chunk_meta storage_type : Nat)
    (dataIsNull : Bool) (data : List Nat) (data_size : Nat) :
    Except JlsError WrState :=
  if data_size &&& (if dataIsNull then 1 else 0) ≠ 0 then
    .error .parameterInvalid
  else
    let chunk_meta := if chunk_meta &&& 0xf000 ≠ 0 then chunk_meta &&& 0x0fff
      else chunk_meta
    let ds : Except JlsError Nat :=
      if storage_type = STORAGE_INVALID then .ok 0
      else if storage_type = STORAGE_BINARY then .ok data_size
      else if storage_type = STORAGE_STRING ∨ storage_type = STORAGE_JSON then
        .ok (strlenModel data + 1)
      else .error .parameterInvalid
    match ds with
    | .error e => .error e
    | .ok data_size =>
      let chunk_meta := chunk_meta ||| (storage_type <<< 12)
      let hdr : ChunkHdr :=
        { item_next := 0, item_prev := st.userDataMra.offset,
          tag := JLS_TAG_USER_DATA, chunk_meta := chunk_meta,
          payload_length := data_size,
          payload_prev_length := st.payloadPrevLength }
      let r := wr_and_link st .userData st.userDataMra hdr
      .ok { r.st with userDataMra := r.mra, payloadPrevLength := data_size }

/-- Function `track_wr_def` (`src/writer.c:339-358`): skip if this track's
def chunk exists, otherwise append an empty-payload def chunk to the signal
list. -/
def track_wr_def (st : WrState) (sid tt : Nat) : WrState :=
  let info := st.signalInfo sid
  let tr := info.tracks tt
  if tr.defC.offset ≠ 0 then st
  else
    let hdr : ChunkHdr :=
      { item_next := 0, item_prev := st.signalMra.offset,
        tag := trackTag tt TRACK_CHUNK_DEF, chunk_meta := sid,
        payload_length := 0, payload_prev_length := st.payloadPrevLength }
    let r := wr_and_link st .signals st.signalMra hdr
    { r.st with
      signalInfo := fun i => if i = sid then
          { info with tracks := fun t => if t = tt then { tr with defC := r.c }
              else info.tracks t }
        else r.st.signalInfo i,
      signalMra := r.mra,
      payloadPrevLength := 0 }

/-- Function `track_wr_head` (`src/writer.c:360-387`). First call for a
track: write the head chunk (payload = the eight `index[i].offset` values,
8 × 8 bytes) with `item_prev` = the signal MRA, but — faithful to the
source — without calling `update_mra`, so the head never becomes the list
tail and `signalMra` is unchanged. Later calls rewrite the payload in place
and re-link; `jls_wr_signal_def` rejects duplicate signals, so that branch
is unreachable from the public operations. -/
def track_wr_head (st : WrState) (sid tt : Nat) : WrState :=
  let info := st.signalInfo sid
  let tr := info.tracks tt
  if tr.headC.offset = 0 then
    let hdr : ChunkHdr :=
      { item_next := 0, item_prev := st.signalMra.offset,
        tag := trackTag tt TRACK_CHUNK_HEAD, chunk_meta := sid,
        payload_length := 8 * SUMMARY_LEVEL_COUNT,
        payload_prev_length := st.payloadPrevLength }
    let r := raw_chunk_wr st .signals hdr
    { r.st with
      signalInfo := fun i => if i = sid then
          { info with tracks := fun t => if t = tt then { tr with headC := r.c }
              else info.tracks t }
        else r.st.signalInfo i }
  else
    let m := update_mra { st with payloadPrevLength := 8 * SUMMARY_LEVEL_COUNT }
      st.signalMra tr.headC
    { m.st with signalMra := m.mra }

/-- Store step of `jls_wr_signal_def` (`src/writer.c:415-460`): copy the
caller's definition (`info->signal_def = *signal`), zero the sample rate
for VSR signals (`src/writer.c:431-434`), then raise
`summary_decimate_factor` to at least 10 and `decimations_per_chunk` to at
least 1000 (`src/writer.c:451-460`). -/
def signal_def_store (signal : SignalDefW) : SignalDefW :=
  let d0 : SignalDefW :=
    if signal.signal_type = SIGNAL_TYPE_VSR then { signal with sample_rate := 0 }
    else signal
  let d1 : SignalDefW :=
    if d0.summary_decimate_factor < SUMMARY_DECIMATE_FACTOR_MIN then
      { d0 with summary_decimate_factor := SUMMARY_DECIMATE_FACTOR_MIN }
    else d0
  if d1.decimations_per_chunk < DECIMATIONS_PER_CHUNK_MIN then
    { d1 with decimations_per_chunk := DECIMATIONS_PER_CHUNK_MIN }
  else d1

/-- Chunk-writing part of `jls_wr_signal_def` (`src/writer.c:462-495`):
allocate the sample buffer (its length is
`summary_decimate_factor * decimations_per_chunk` of the stored, clamped
definition, `src/writer.c:463`), build and append the signal_def chunk to
the signal list, and store the per-signal bookkeeping, including the tag
values — in particular `track_type` receives the DATA TAG value `dtag`
(`src/writer.c:428,438`). -/
def signal_def_write (st : WrState) (signal : SignalDefW)
    (dtag stag itag : Nat) : WrState :=
  let d := signal_def_store signal
  let signal_id := signal.signal_id
  let payload_length := (signal_def_payload d).length
  let hdr : ChunkHdr :=
    { item_next := 0, item_prev := st.signalMra.offset,
      tag := JLS_TAG_SIGNAL_DEF, chunk_meta := signal_id,
      payload_length := payload_length,
      payload_prev_length := st.payloadPrevLength }
  let r := wr_and_link st .signals st.signalMra hdr
  let info0 := st.signalInfo signal_id
  let info1 : SignalInfo := { info0 with
    chunkDef := r.c, sigDef := d,
    bufLen := d.summary_decimate_factor * d.decimations_per_chunk,
    bufOff := 0, data_tag := dtag, summary_tag := stag, index_tag := itag,
    track_type := dtag }
  { r.st with
    signalInfo := fun i => if i = signal_id then info1
      else r.st.signalInfo i,
    signalMra := r.mra, payloadPrevLength := payload_length }

/-- Function `jls_wr_signal_def` (`src/writer.c:389-511`): validations in
source order, the store-and-clamp step `signal_def_store`, then the
signal_def chunk append `signal_def_write` followed by a def and a head
chunk for each track of the signal type. -/
def jls_wr_signal_def (st : WrState) (signal : SignalDefW) :
    Except JlsError WrState :=
  let signal_id := signal.signal_id
  if SIGNAL_COUNT ≤ signal_id then .error .parameterInvalid
  else if SOURCE_COUNT ≤ signal.source_id then .error .parameterInvalid
  else if (st.sourceInfo signal.source_id).offset = 0 then .error .notFound
  else if (st.signalInfo signal_id).chunkDef.offset ≠ 0 then
    .error .alreadyExists
  else if signal.signal_type ≠ SIGNAL_TYPE_FSR ∧
      signal.signal_type ≠ SIGNAL_TYPE_VSR then .error .parameterInvalid
  else if signal.signal_type = SIGNAL_TYPE_FSR ∧ signal.sample_rate = 0 then
    .error .parameterInvalid
  else if signal.data_type ≠ DATATYPE_F32 then .error .notSupported
  else if BUFFER_SIZE < (signal_def_payload (signal_def_store signal)).length
  then .error .notEnoughMemory
  else if signal.signal_type = SIGNAL_TYPE_FSR then
    let st1 := signal_def_write st signal JLS_TAG_TRACK_FSR_DATA
      (trackTag TRACK_TYPE_FSR 4) (trackTag TRACK_TYPE_FSR 3)
    let st2 := track_wr_def st1 signal_id TRACK_TYPE_FSR
    let st3 := track_wr_head st2 signal_id TRACK_TYPE_FSR
    let st4 := track_wr_def st3 signal_id TRACK_TYPE_ANNO
    let st5 := track_wr_head st4 signal_id TRACK_TYPE_ANNO
    let st6 := track_wr_def st5 signal_id TRACK_TYPE_UTC
    .ok (track_wr_head st6 signal_id TRACK_TYPE_UTC)
  else
    let st1 := signal_def_write st signal JLS_TAG_TRACK_VSR_DATA
      (trackTag TRACK_TYPE_VSR 4) (trackTag TRACK_TYPE_VSR 3)
    let st2 := track_wr_def st1 signal_id TRACK_TYPE_VSR
    let st3 := track_wr_head st2 signal_id TRACK_TYPE_VSR
    let st4 := track_wr_def st3 signal_id TRACK_TYPE_ANNO
    .ok (track_wr_head st4 signal_id TRACK_TYPE_ANNO)

/-- Function `signal_validate` of the writer (`src/writer.c:562-572`):
signal id in range and defined; no check of the signal's type. -/
def signal_validate (st : WrState) (signal_id : Nat) : Except JlsError Unit :=
  if SIGNAL_COUNT ≤ signal_id then .error .parameterInvalid
  else if (st.signalInfo signal_id).chunkDef.offset = 0 then .error .notFound
  else .ok ()

/-- Function `signal_validate_typed` (`src/writer.c:574-581`):
`signal_validate` plus a signal-type check failing `NOT_SUPPORTED`. -/
def signal_validate_typed (st : WrState) (signal_id signal_type : Nat) :
    Except JlsError Unit :=
  match signal_validate st signal_id with
  | .error e => .error e
  | .ok _ =>
    if (st.signalInfo signal_id).sigDef.signal_type ≠ signal_type then
      .error .notSupported
    else .ok ()

/-- Function `jls_wr_fsr_f32` (`src/writer.c:583-630`): only
`signal_validate` guards the call; then the loop modelled by `fsrLoop`
runs, and when it fills the buffer it writes one data chunk (payload length
`b->length + sizeof(uint64_t)` as at `src/writer.c:613`) into the list of
`tracks[info->track_type]` and returns from inside the loop. The buffer
offset is left at its final value — the source never resets it. -/
def jls_wr_fsr_f32 (st : WrState) (signal_id sample_id data_length : Nat) :
    Except JlsError WrState :=
  match signal_validate st signal_id with
  | .error e => .error e
  | .ok _ =>
    let info := st.signalInfo signal_id
    let r := fsrLoop info.bufLen info.bufOff data_length
    if r.emitted then
      let tr := info.tracks info.track_type
      let hdr : ChunkHdr :=
        { item_next := 0, item_prev := tr.dataC.offset,
          tag := info.data_tag, chunk_meta := signal_id,
          payload_length := info.bufLen + 8,
          payload_prev_length := st.payloadPrevLength }
      let w := wr_and_link st (.trackData signal_id info.track_type) tr.dataC hdr
      .ok { w.st with
        signalInfo := fun i => if i = signal_id then
            { info with
              bufOff := r.bufOff,
              tracks := fun t => if t = info.track_type then
                  { tr with dataC := w.mra }
                else info.tracks t }
          else w.st.signalInfo i,
        payloadPrevLength := info.bufLen + 8 }
    else
      .ok { st with signalInfo := fun i => if i = signal_id then
          { info with bufOff := r.bufOff } else st.signalInfo i }

/-- Payload length built by `anno_wr` (`src/writer.c:644-663`): a u64
timestamp through the 9-byte `buf_wr_u64` (see `u64le9`), two u8 fields,
six zero bytes, then the body (binary verbatim; string and JSON through
`buf_add_str`, counted by `strField` as for the other string fields). -/
def annoPayloadLen (storage_type : Nat) (data : List Nat) (data_size : Nat) :
    Except JlsError Nat :=
  if storage_type = STORAGE_BINARY then .ok (9 + 1 + 1 + 6 + data_size)
  else if storage_type = STORAGE_STRING ∨ storage_type = STORAGE_JSON then
    .ok (9 + 1 + 1 + 6 + (strlenModel data + 2))
  else .error .parameterInvalid

/-- Function `anno_wr` (`src/writer.c:632-680`): validate, build the
payload, append one annotation-data chunk to the signal's ANNOTATION track
data list. -/
def anno_wr (st : WrState) (signal_id timestamp anno_type storage_type : Nat)
    (data : List Nat) (data_size : Nat) : Except JlsError WrState :=
  match signal_validate st signal_id with
  | .error e => .error e
  | .ok _ =>
    if anno_type &&& 0xff ≠ anno_type then .error .parameterInvalid
    else if storage_type &&& 0xff ≠ storage_type then .error .parameterInvalid
    else
      match annoPayloadLen storage_type data data_size with
      | .error e => .error e
      | .ok payload_length =>
        let info := st.signalInfo signal_id
        let tr := info.tracks TRACK_TYPE_ANNO
        let hdr : ChunkHdr :=
          { item_next := 0, item_prev := tr.dataC.offset,
            tag := JLS_TAG_TRACK_ANNO_DATA, chunk_meta := signal_id,
            payload_length := payload_length,
            payload_prev_length := st.payloadPrevLength }
        let w := wr_and_link st (.trackData signal_id TRACK_TYPE_ANNO)
          tr.dataC hdr
        .ok { w.st with
          signalInfo := fun i => if i = signal_id then
              { info with tracks := fun t => if t = TRACK_TYPE_ANNO then
                  { tr with dataC := w.mra } else info.tracks t }
            else w.st.signalInfo i,
          payloadPrevLength := payload_length }

/-- Function `jls_wr_fsr_annotation` (`src/writer.c:682-687`): typed
validation (FSR), then `anno_wr`. -/
def jls_wr_fsr_anno (st : WrState) (signal_id sample_id anno_type storage_type : Nat)
    (data : List Nat) (data_size : Nat) : Except JlsError WrState :=
  match signal_validate_typed st signal_id SIGNAL_TYPE_FSR with
  | .error e => .error e
  | .ok _ => anno_wr st signal_id sample_id anno_type storage_type data data_size

/-- Function `jls_wr_vsr_annotation` (`src/writer.c:717-722`): typed
validation (VSR), then `anno_wr`. -/
def jls_wr_vsr_anno (st : WrState) (signal_id timestamp anno_type storage_type : Nat)
    (data : List Nat) (data_size : Nat) : Except JlsError WrState :=
  match signal_validate_typed st signal_id SIGNAL_TYPE_VSR with
  | .error e => .error e
  | .ok _ => anno_wr st signal_id timestamp anno_type storage_type data data_size

/-- Function `jls_wr_fsr_utc` (`src/writer.c:689-715`): typed validation
(FSR), then one 16-byte UTC data chunk appended to the UTC track's data
list. -/
def jls_wr_fsr_utc (st : WrState) (signal_id sample_id : Nat) (utc : Int) :
    Except JlsError WrState :=
  match signal_validate_typed st signal_id SIGNAL_TYPE_FSR with
  | .error e => .error e
  | .ok _ =>
    let info := st.signalInfo signal_id
    let tr := info.tracks TRACK_TYPE_UTC
    let hdr : ChunkHdr :=
      { item_next := 0, item_prev := tr.dataC.offset,
        tag := JLS_TAG_TRACK_UTC_DATA, chunk_meta := signal_id,
        payload_length := 16, payload_prev_length := st.payloadPrevLength }
    let w := wr_and_link st (.trackData signal_id TRACK_TYPE_UTC) tr.dataC hdr
    .ok { w.st with
      signalInfo := fun i => if i = signal_id then
          { info with tracks := fun t => if t = TRACK_TYPE_UTC then
              { tr with dataC := w.mra } else info.tracks t }
        else w.st.signalInfo i,
      payloadPrevLength := 16 }

/-- Public writer operations. -/
inductive WrOp where
  | sourceDef (source : SourceDefC)
  | signalDef (signal : SignalDefW)
  | userData (chunk_meta storage_type : Nat) (dataIsNull : Bool)
      (data : List Nat) (data_size : Nat)
  | fsrF32 (signal_id sample_id data_length : Nat)
  | fsrAnno (signal_id sample_id anno_type storage_type : Nat)
      (data : List Nat) (data_size : Nat)
  | vsrAnno (signal_id timestamp anno_type storage_type : Nat)
      (data : List Nat) (data_size : Nat)
  | fsrUtc (signal_id sample_id : Nat) (utc : Int)

/-- Apply one public operation; a failing call leaves the writer state
unchanged (every error return in the source happens before any write, or —
for the raw layer, whose I/O cannot fail in the model — not at all). -/
def applyOp (st : WrState) : WrOp → WrState
  | .sourceDef s =>
    match jls_wr_source_def st s with | .ok st' => st' | .error _ => st
  | .signalDef s =>
    match jls_wr_signal_def st s with | .ok st' => st' | .error _ => st
  | .userData m t n d sz =>
    match jls_wr_user_data st m t n d sz with | .ok st' => st' | .error _ => st
  | .fsrF32 sid sa len =>
    match jls_wr_fsr_f32 st sid sa len with | .ok st' => st' | .error _ => st
  | .fsrAnno sid sa at_ st_ d sz =>
    match jls_wr_fsr_anno st sid sa at_ st_ d sz with
    | .ok st' => st' | .error _ => st
  | .vsrAnno sid ts at_ st_ d sz =>
    match jls_wr_vsr_anno st sid ts at_ st_ d sz with
    | .ok st' => st' | .error _ => st
  | .fsrUtc sid sa u =>
    match jls_wr_fsr_utc st sid sa u with | .ok st' => st' | .error _ => st

/-- Run a sequence of public operations. -/
def runOps (st : WrState) (ops : List WrOp) : WrState := ops.foldl applyOp st

/-- Writer state right after `jls_raw_open` in `jls_wr_open`
(`src/writer.c:143-166`): the `calloc`-zeroed writer with the file
containing only the file header (the next chunk goes at offset 32). -/
def initState : WrState :=
  { pos := 32, file := fun _ => none, listOf := fun _ => none,
    sourceInfo := fun _ => {}, sourceMra := {},
    signalInfo := fun _ => {}, signalMra := {}, userDataMra := {},
    payloadPrevLength := 0 }

/-- Byte list of an ASCII string literal. -/
def strBytes (s : String) : List Nat := s.data.map (fun c => c.toNat)

/-- Constant `SOURCE_0` (`src/writer.c:106-113`). -/
def SOURCE_0 : SourceDefC :=
  { source_id := 0, name := strBytes "s", vendor := strBytes "None",
    model := strBytes "None", version := strBytes "1.0.0",
    serial_number := strBytes "None" }

/-- Constant `SIGNAL_0` (`src/writer.c:115-126`). -/
def SIGNAL_0 : SignalDefW :=
  { signal_id := 0, source_id := 0, signal_type := SIGNAL_TYPE_VSR,
    data_type := DATATYPE_F32, sample_rate := 0,
    decimations_per_chunk := 10000, summary_decimate_factor := 100,
    utc_rate_auto := 0, name := strBytes "global_annotation_signal",
    si_units := [] }

/-- Calls issued by `jls_wr_open` after opening the raw layer
(`src/writer.c:167-169`): the sentinel user-data chunk, `SOURCE_0`, and
`SIGNAL_0`. All three succeed on the fresh state. -/
def openOps : List WrOp :=
  [.userData 0 STORAGE_INVALID true [] 0,
   .sourceDef SOURCE_0,
   .signalDef SIGNAL_0]

/-- Writer state produced by `jls_wr_open` (`src/writer.c:143-173`). -/
def openState : WrState := runOps initState openOps

/-- Function `jls_wr_close` (`src/writer.c:175-188`): close the raw layer
and free the sample buffers. It performs no writes — pending sample-buffer
contents are not flushed and no head chunk is updated — so the file (and
the whole observable state) is unchanged. -/
def jls_wr_close (st : WrState) : WrState := st

/-!
Component lemmas for the write primitives, used throughout the proofs.
-/

theorem raw_chunk_wr_c (st : WrState) (l : ListId) (hdr : ChunkHdr) :
    (raw_chunk_wr st l hdr).c = ⟨hdr, st.pos⟩ := rfl

theorem raw_chunk_wr_pos (st : WrState) (l : ListId) (hdr : ChunkHdr) :
    (raw_chunk_wr st l hdr).st.pos = st.pos + 32 + hdr.payload_length := rfl

theorem raw_chunk_wr_file (st : WrState) (l : ListId) (hdr : ChunkHdr) :
    (raw_chunk_wr st l hdr).st.file =
      fun o => if o = st.pos then some hdr else st.file o := rfl

theorem raw_chunk_wr_listOf (st : WrState) (l : ListId) (hdr : ChunkHdr) :
    (raw_chunk_wr st l hdr).st.listOf =
      fun o => if o = st.pos then some l else st.listOf o := rfl

@[simp] theorem raw_chunk_wr_signalInfo (st : WrState) (l : ListId) (hdr : ChunkHdr) :
    (raw_chunk_wr st l hdr).st.signalInfo = st.signalInfo := rfl

@[simp] theorem raw_chunk_wr_sourceInfo (st : WrState) (l : ListId) (hdr : ChunkHdr) :
    (raw_chunk_wr st l hdr).st.sourceInfo = st.sourceInfo := rfl

@[simp] theorem raw_chunk_wr_sourceMra (st : WrState) (l : ListId) (hdr : ChunkHdr) :
    (raw_chunk_wr st l hdr).st.sourceMra = st.sourceMra := rfl

@[simp] theorem raw_chunk_wr_signalMra (st : WrState) (l : ListId) (hdr : ChunkHdr) :
    (raw_chunk_wr st l hdr).st.signalMra = st.signalMra := rfl

@[simp] theorem raw_chunk_wr_userDataMra (st : WrState) (l : ListId) (hdr : ChunkHdr) :
    (raw_chunk_wr st l hdr).st.userDataMra = st.userDataMra := rfl

@[simp] theorem raw_chunk_wr_payloadPrevLength (st : WrState) (l : ListId) (hdr : ChunkHdr) :
    (raw_chunk_wr st l hdr).st.payloadPrevLength = st.payloadPrevLength := rfl

@[simp] theorem update_mra_mra (st : WrState) (mra upd : ChunkDesc) :
    (update_mra st mra upd).mra = upd := by
  unfold update_mra; split <;> rfl

@[simp] theorem update_mra_pos (st : WrState) (mra upd : ChunkDesc) :
    (update_mra st mra upd).st.pos = st.pos := by
  unfold update_mra; split <;> rfl

@[simp] theorem update_mra_listOf (st : WrState) (mra upd : ChunkDesc) :
    (update_mra st mra upd).st.listOf = st.listOf := by
  unfold update_mra; split <;> rfl

@[simp] theorem update_mra_signalInfo (st : WrState) (mra upd : ChunkDesc) :
    (update_mra st mra upd).st.signalInfo = st.signalInfo := by
  unfold update_mra; split <;> rfl

@[simp] theorem update_mra_sourceInfo (st : WrState) (mra upd : ChunkDesc) :
    (update_mra st mra upd).st.sourceInfo = st.sourceInfo := by
  unfold update_mra; split <;> rfl

@[simp] theorem update_mra_sourceMra (st : WrState) (mra upd : ChunkDesc) :
    (update_mra st mra upd).st.sourceMra = st.sourceMra := by
  unfold update_mra; split <;> rfl

@[simp] theorem update_mra_signalMra (st : WrState) (mra upd : ChunkDesc) :
    (update_mra st mra upd).st.signalMra = st.signalMra := by
  unfold update_mra; split <;> rfl

@[simp] theorem update_mra_userDataMra (st : WrState) (mra upd : ChunkDesc) :
    (update_mra st mra upd).st.userDataMra = st.userDataMra := by
  unfold update_mra; split <;> rfl

@[simp] theorem update_mra_payloadPrevLength (st : WrState) (mra upd : ChunkDesc) :
    (update_mra st mra upd).st.payloadPrevLength = st.payloadPrevLength := by
  unfold update_mra; split <;> rfl

theorem update_mra_file (st : WrState) (mra upd : ChunkDesc) :
    (update_mra st mra upd).st.file = fun o =>
      if mra.offset ≠ 0 ∧ o = mra.offset then
        some { mra.hdr with item_next := upd.offset }
      else st.file o := by
  funext o
  unfold update_mra
  by_cases h : mra.offset ≠ 0 <;> by_cases ho : o = mra.offset <;> simp [h, ho]

@[simp] theorem wr_and_link_c (st : WrState) (l : ListId) (mra : ChunkDesc)
    (hdr : ChunkHdr) : (wr_and_link st l mra hdr).c = ⟨hdr, st.pos⟩ := by
  unfold wr_and_link; rfl

@[simp] theorem wr_and_link_mra (st : WrState) (l : ListId) (mra : ChunkDesc)
    (hdr : ChunkHdr) : (wr_and_link st l mra hdr).mra = ⟨hdr, st.pos⟩ := by
  unfold wr_and_link; simp [raw_chunk_wr_c]

@[simp] theorem wr_and_link_pos (st : WrState) (l : ListId) (mra : ChunkDesc)
    (hdr : ChunkHdr) :
    (wr_and_link st l mra hdr).st.pos = st.pos + 32 + hdr.payload_length := by
  unfold wr_and_link; simp [raw_chunk_wr_pos]

@[simp] theorem wr_and_link_listOf (st : WrState) (l : ListId) (mra : ChunkDesc)
    (hdr : ChunkHdr) :
    (wr_and_link st l mra hdr).st.listOf =
      fun o => if o = st.pos then some l else st.listOf o := by
  unfold wr_and_link; simp [raw_chunk_wr_listOf]

@[simp] theorem wr_and_link_signalInfo (st : WrState) (l : ListId)
    (mra : ChunkDesc) (hdr : ChunkHdr) :
    (wr_and_link st l mra hdr).st.signalInfo = st.signalInfo := by
  unfold wr_and_link; simp

@[simp] theorem wr_and_link_sourceInfo (st : WrState) (l : ListId)
    (mra : ChunkDesc) (hdr : ChunkHdr) :
    (wr_and_link st l mra hdr).st.sourceInfo = st.sourceInfo := by
  unfold wr_and_link; simp

@[simp] theorem wr_and_link_sourceMra (st : WrState) (l : ListId)
    (mra : ChunkDesc) (hdr : ChunkHdr) :
    (wr_and_link st l mra hdr).st.sourceMra = st.sourceMra := by
  unfold wr_and_link; simp

@[simp] theorem wr_and_link_signalMra (st : WrState) (l : ListId)
    (mra : ChunkDesc) (hdr : ChunkHdr) :
    (wr_and_link st l mra hdr).st.signalMra = st.signalMra := by
  unfold wr_and_link; simp

@[simp] theorem wr_and_link_userDataMra (st : WrState) (l : ListId)
    (mra : ChunkDesc) (hdr : ChunkHdr) :
    (wr_and_link st l mra hdr).st.userDataMra = st.userDataMra := by
  unfold wr_and_link; simp

@[simp] theorem wr_and_link_payloadPrevLength (st : WrState) (l : ListId)
    (mra : ChunkDesc) (hdr : ChunkHdr) :
    (wr_and_link st l mra hdr).st.payloadPrevLength = st.payloadPrevLength := by
  unfold wr_and_link; simp

theorem wr_and_link_file (st : WrState) (l : ListId) (mra : ChunkDesc)
    (hdr : ChunkHdr) :
    (wr_and_link st l mra hdr).st.file = fun o =>
      if mra.offset ≠ 0 ∧ o = mra.offset then
        some { mra.hdr with item_next := st.pos }
      else if o = st.pos then some hdr else st.file o := by
  unfold wr_and_link
  rw [update_mra_file]
  simp [raw_chunk_wr_file, raw_chunk_wr_c]

/-- Track functions never change a signal's stored definition. -/
theorem track_wr_def_sigDef (st : WrState) (sid tt i : Nat) :
    ((track_wr_def st sid tt).signalInfo i).sigDef =
      (st.signalInfo i).sigDef := by
  simp only [track_wr_def]
  split
  · rfl
  · by_cases hi : i = sid <;> simp [hi]

/-- Track head writes never change a signal's stored definition. -/
theorem track_wr_head_sigDef (st : WrState) (sid tt i : Nat) :
    ((track_wr_head st sid tt).signalInfo i).sigDef =
      (st.signalInfo i).sigDef := by
  simp only [track_wr_head]
  split
  · by_cases hi : i = sid <;> simp [hi, raw_chunk_wr_signalInfo]
  · simp

/-- Level scan of `jls_rd_fsr_length` (`src/reader.c:628-640`): find the
highest summary level whose offset in the FSR track's head data is nonzero;
`none` means every level offset is 0, in which case the reader sets
`*samples = 0` and returns success (`src/reader.c:637-640`). -/
def rd_fsr_length_head_scan (offsets : Nat → Nat) : Option Nat :=
  (List.range SUMMARY_LEVEL_COUNT).reverse.find? (fun l => offsets l != 0)

set_option maxRecDepth 1000000

/-- FSR signal definition used by the concrete write scenarios: signal 1,
source 0, `summary_decimate_factor` 10 and `decimations_per_chunk` 1000,
giving the minimum sample-buffer capacity 10 × 1000 = 10000. -/
def sigFsr : SignalDefW :=
  { signal_id := 1, source_id := 0, signal_type := SIGNAL_TYPE_FSR,
    data_type := DATATYPE_F32, sample_rate := 1000,
    decimations_per_chunk := 1000, summary_decimate_factor := 10,
    utc_rate_auto := 0, name := strBytes "x", si_units := strBytes "v" }

/-- Writer state after `jls_wr_open`, defining FSR signal 1 and then
writing the sample stream S of length L = 10000 via `jls_wr_fsr_f32`. -/
def stC1 : WrState :=
  runOps initState (openOps ++ [.signalDef sigFsr, .fsrF32 1 0 10000])

/-- Claim C1 (code_bug): the claim says that after writing a stream of
length L into an FSR signal and closing, `jls_rd_fsr_length` reports L and
`jls_rd_fsr_f32` returns the stream. In the scenario `stC1` (L = 10000,
exactly one full buffer) the writer does emit a level-0 data chunk — the
chunk descriptor in the slot `tracks[info->track_type]` the source uses is
nonzero — but no code path ever writes an index chunk or re-patches the
track head after data writes (`src/writer.c:622-625` is a to-do), and
`jls_wr_close` flushes nothing, so the FSR track head data stays all zeros
both in the head chunk payload and in what `scan_signals` could collect.
The reader's level scan therefore finds no level and
`jls_rd_fsr_length` reports 0 samples, not 10000. -/
theorem c1_fsr_roundtrip_lost :
    (fsrLoop 10000 0 10000).emitted = true ∧
    (((jls_wr_close stC1).signalInfo 1).tracks JLS_TAG_TRACK_FSR_DATA).dataC.offset ≠ 0 ∧
    rd_fsr_length_head_scan
      ((((jls_wr_close stC1).signalInfo 1).tracks TRACK_TYPE_FSR).indexOff) = none ∧
    (10000 : Nat) ≠ 0 := by
  refine ⟨by decide, by decide, by decide, by decide⟩

/-- Stored definition resulting from a successful `jls_wr_signal_def`
call, `none` when the call fails. -/
def signalDefStored (st : WrState) (signal : SignalDefW) : Option SignalDefW :=
  match jls_wr_signal_def st signal with
  | .ok st' => some ((st'.signalInfo signal.signal_id).sigDef)
  | .error _ => none

set_option maxHeartbeats 4000000

/-- Step `signal_def_write` stores exactly `signal_def_store` of its
argument. -/
theorem signal_def_write_sigDef (st : WrState) (signal : SignalDefW)
    (dtag stag itag : Nat) :
    ((signal_def_write st signal dtag stag itag).signalInfo
      signal.signal_id).sigDef = signal_def_store signal := by
  simp [signal_def_write]

/-- A successful `jls_wr_signal_def` leaves exactly `signal_def_store` of
its argument in the signal's stored definition. -/
theorem jls_wr_signal_def_ok_sigDef (st : WrState) (signal : SignalDefW)
    (st' : WrState) (hcall : jls_wr_signal_def st signal = .ok st') :
    (st'.signalInfo signal.signal_id).sigDef = signal_def_store signal := by
  dsimp only [jls_wr_signal_def] at hcall
  by_cases h1 : SIGNAL_COUNT ≤ signal.signal_id
  · rw [if_pos h1] at hcall; exact Except.noConfusion hcall
  rw [if_neg h1] at hcall
  by_cases h2 : SOURCE_COUNT ≤ signal.source_id
  · rw [if_pos h2] at hcall; exact Except.noConfusion hcall
  rw [if_neg h2] at hcall
  by_cases h3 : (st.sourceInfo signal.source_id).offset = 0
  · rw [if_pos h3] at hcall; exact Except.noConfusion hcall
  rw [if_neg h3] at hcall
  by_cases h4 : (st.signalInfo signal.signal_id).chunkDef.offset ≠ 0
  · rw [if_pos h4] at hcall; exact Except.noConfusion hcall
  rw [if_neg h4] at hcall
  by_cases h5 : signal.signal_type ≠ SIGNAL_TYPE_FSR ∧
      signal.signal_type ≠ SIGNAL_TYPE_VSR
  · rw [if_pos h5] at hcall; exact Except.noConfusion hcall
  rw [if_neg h5] at hcall
  by_cases h6 : signal.signal_type = SIGNAL_TYPE_FSR ∧ signal.sample_rate = 0
  · rw [if_pos h6] at hcall; exact Except.noConfusion hcall
  rw [if_neg h6] at hcall
  by_cases h7 : signal.data_type ≠ DATATYPE_F32
  · rw [if_pos h7] at hcall; exact Except.noConfusion hcall
  rw [if_neg h7] at hcall
  by_cases h8 : BUFFER_SIZE < (signal_def_payload (signal_def_store signal)).length
  · rw [if_pos h8] at hcall; exact Except.noConfusion hcall
  rw [if_neg h8] at hcall
  by_cases h9 : signal.signal_type = SIGNAL_TYPE_FSR
  · rw [if_pos h9] at hcall
    injection hcall with hcall
    subst hcall
    simp [track_wr_def_sigDef, track_wr_head_sigDef, signal_def_write_sigDef]
  · rw [if_neg h9] at hcall
    injection hcall with hcall
    subst hcall
    simp [track_wr_def_sigDef, track_wr_head_sigDef, signal_def_write_sigDef]

/-- A successful `jls_wr_signal_def` stores exactly `signal_def_store` of
its argument. -/
theorem signalDefStored_eq_store (st : WrState) (signal d : SignalDefW)
    (h : signalDefStored st signal = some d) :
    d = signal_def_store signal := by
  unfold signalDefStored at h
  rcases hcall : jls_wr_signal_def st signal with e | st'
  · rw [hcall] at h
    exact Option.noConfusion h
  · rw [hcall] at h
    have hd := Option.some.inj h
    rw [← hd]
    exact jls_wr_signal_def_ok_sigDef st signal st' hcall

/-- Claim C6 (confirmed): after any successful `jls_wr_signal_def`, the
stored definition has `summary_decimate_factor ≥ 10` and
`decimations_per_chunk ≥ 1000` (the writer's field the spec calls
`entries_per_summary`); values below the minima are raised to them, values
at or above are kept unchanged. -/
theorem c6_signal_def_clamps (st : WrState) (signal d : SignalDefW)
    (h : signalDefStored st signal = some d) :
    SUMMARY_DECIMATE_FACTOR_MIN ≤ d.summary_decimate_factor ∧
    DECIMATIONS_PER_CHUNK_MIN ≤ d.decimations_per_chunk ∧
    (SUMMARY_DECIMATE_FACTOR_MIN ≤ signal.summary_decimate_factor →
      d.summary_decimate_factor = signal.summary_decimate_factor) ∧
    (signal.summary_decimate_factor < SUMMARY_DECIMATE_FACTOR_MIN →
      d.summary_decimate_factor = SUMMARY_DECIMATE_FACTOR_MIN) ∧
    (DECIMATIONS_PER_CHUNK_MIN ≤ signal.decimations_per_chunk →
      d.decimations_per_chunk = signal.decimations_per_chunk) ∧
    (signal.decimations_per_chunk < DECIMATIONS_PER_CHUNK_MIN →
      d.decimations_per_chunk = DECIMATIONS_PER_CHUNK_MIN) := by
  have hd := signalDefStored_eq_store st signal d h
  subst hd
  simp only [signal_def_store]
  split_ifs <;>
    simp_all [SUMMARY_DECIMATE_FACTOR_MIN, DECIMATIONS_PER_CHUNK_MIN]

/-- Input of the `c6_signal_def_clamps` witness: FSR signal 1 on source 0
with both factors below the minima. -/
def sigC6in : SignalDefW :=
  { signal_id := 1, source_id := 0, signal_type := SIGNAL_TYPE_FSR,
    data_type := DATATYPE_F32, sample_rate := 7,
    decimations_per_chunk := 50, summary_decimate_factor := 3,
    utc_rate_auto := 0, name := [120], si_units := [] }

/-- Stored result of the `c6_signal_def_clamps` witness: both factors
raised to the minima. -/
def sigC6out : SignalDefW :=
  { signal_id := 1, source_id := 0, signal_type := SIGNAL_TYPE_FSR,
    data_type := DATATYPE_F32, sample_rate := 7,
    decimations_per_chunk := 1000, summary_decimate_factor := 10,
    utc_rate_auto := 0, name := [120], si_units := [] }

/-- Witness for `c6_signal_def_clamps`: on the open state, defining FSR
signal 1 with `summary_decimate_factor = 3` and
`decimations_per_chunk = 50` succeeds and stores 10 and 1000. -/
theorem c6_signal_def_clamps_witness :
    signalDefStored openState sigC6in = some sigC6out ∧
    SUMMARY_DECIMATE_FACTOR_MIN ≤ sigC6out.summary_decimate_factor ∧
    DECIMATIONS_PER_CHUNK_MIN ≤ sigC6out.decimations_per_chunk :=
  ⟨by rfl,
   (c6_signal_def_clamps openState sigC6in sigC6out (by rfl)).1,
   (c6_signal_def_clamps openState sigC6in sigC6out (by rfl)).2.1⟩

/-- Claim C7 (confirmed): calling `jls_wr_source_def` with a source id that
is already defined fails with `AlreadyExists` and leaves the writer state —
in particular the file and the first definition — unchanged. -/
theorem c7_duplicate_source (st : WrState) (source : SourceDefC)
    (hlt : source.source_id < SOURCE_COUNT)
    (hdef : (st.sourceInfo source.source_id).offset ≠ 0) :
    jls_wr_source_def st source = .error .alreadyExists ∧
    applyOp st (.sourceDef source) = st := by
  have herr : jls_wr_source_def st source = .error .alreadyExists := by
    unfold jls_wr_source_def
    rw [if_neg (by omega), if_pos hdef]
  exact ⟨herr, by simp [applyOp, herr]⟩

/-- Witness for `c7_duplicate_source`: redefining source 0, which
`jls_wr_open` pre-defines, on the open state. -/
theorem c7_duplicate_source_witness :
    (SOURCE_0.source_id < SOURCE_COUNT ∧
     (openState.sourceInfo SOURCE_0.source_id).offset ≠ 0) ∧
    (jls_wr_source_def openState SOURCE_0 = .error .alreadyExists ∧
     applyOp openState (.sourceDef SOURCE_0) = openState) :=
  ⟨⟨by decide, by decide⟩,
   c7_duplicate_source openState SOURCE_0 (by decide) (by decide)⟩

/-- Claim C8 (code_bug): the claim says `jls_wr_user_data` with
`data == NULL` and `data_size > 0` returns `ParameterInvalid`. The guard at
`src/writer.c:518` is `data_size & !data` — bitwise AND with the logical
negation of the pointer — so with `data = NULL` it only tests the low bit
of `data_size`: the call with `data_size = 2` passes the guard and writes a
chunk whose payload is read from the null pointer, while `data_size = 1` is
(accidentally) rejected. -/
theorem c8_user_data_null_guard :
    (jls_wr_user_data initState 0 STORAGE_BINARY true [] 2).isOk = true ∧
    jls_wr_user_data initState 0 STORAGE_BINARY true [] 1 =
      .error .parameterInvalid := by
  refine ⟨by rfl, by rfl⟩

/-- Claim C10 (confirmed): `jls_wr_fsr_f32` is guarded only by
`signal_validate`, which checks that the id is in range and defined but not
the signal's type; on a defined VSR signal the call is accepted and
proceeds into the sample loop, whereas the typed validation used by the
annotation and UTC entry points fails the same signal with
`NotSupported`. -/
theorem c10_fsr_f32_untyped_validation (st : WrState) (signal_id : Nat)
    (hlt : signal_id < SIGNAL_COUNT)
    (hdef : (st.signalInfo signal_id).chunkDef.offset ≠ 0)
    (hvsr : (st.signalInfo signal_id).sigDef.signal_type = SIGNAL_TYPE_VSR) :
    signal_validate st signal_id = .ok () ∧
    signal_validate_typed st signal_id SIGNAL_TYPE_FSR =
      .error .notSupported ∧
    ∀ sample_id data_length,
      (jls_wr_fsr_f32 st signal_id sample_id data_length).isOk = true := by
  have hv : signal_validate st signal_id = .ok () := by
    unfold signal_validate
    rw [if_neg (by omega), if_neg (by simpa using hdef)]
  refine ⟨hv, ?_, ?_⟩
  · unfold signal_validate_typed
    rw [hv]
    rw [if_pos (by simp [hvsr, SIGNAL_TYPE_VSR, SIGNAL_TYPE_FSR])]
  · intro sample_id data_length
    unfold jls_wr_fsr_f32
    rw [hv]
    dsimp only
    split <;> rfl

/-- Witness for `c10_fsr_f32_untyped_validation`: signal 0, which
`jls_wr_open` defines as a VSR signal, on the open state. -/
theorem c10_fsr_f32_untyped_validation_witness :
    ((0 : Nat) < SIGNAL_COUNT ∧
     (openState.signalInfo 0).chunkDef.offset ≠ 0 ∧
     (openState.signalInfo 0).sigDef.signal_type = SIGNAL_TYPE_VSR) ∧
    signal_validate openState 0 = .ok () ∧
    signal_validate_typed openState 0 SIGNAL_TYPE_FSR =
      .error .notSupported ∧
    (jls_wr_fsr_f32 openState 0 0 3).isOk = true :=
  ⟨⟨by decide, by decide, by decide⟩,
   (c10_fsr_f32_untyped_validation openState 0 (by decide) (by decide)
     (by decide)).1,
   (c10_fsr_f32_untyped_validation openState 0 (by decide) (by decide)
     (by decide)).2.1,
   (c10_fsr_f32_untyped_validation openState 0 (by decide) (by decide)
     (by decide)).2.2 0 3⟩

/-!
Chunk-linking machinery of the writer.

Every append in `src/writer.c` follows the `update_mra` protocol: the new
chunk is written with `item_prev` = the list's most-recently-added offset
and `item_next = 0`, then the previous tail's header is patched in place so
its `item_next` points at the new chunk. The lemmas below show that this
protocol, run over the model state — in which every `tracks` index denotes
a descriptor slot of its own — preserves back-linking in every state
reachable by public writer operations from the open state. The C program
provides no such slot for the FSR/VSR sample-data list: `jls_wr_fsr_f32`
keeps that list's descriptor at `tracks[info->track_type]`, an index out of
bounds of the four-element `tracks` array that aliases unrelated memory
(claim C9 below), so these lemmas hold of the idealized model only.
-/

/-- Invariant of claim C9 over the file built so far: chunks linked forward
are linked back and stay within one logical list. -/
def chunkLinkInv (st : WrState) : Prop :=
  ∀ o h, st.file o = some h → h.item_next ≠ 0 →
    ∃ h', st.file h.item_next = some h' ∧ h'.item_prev = o ∧
      st.listOf h.item_next = st.listOf o

/-- Validity of a cached MRA descriptor for list `l`: when present, it
denotes a written chunk of that list whose stored header matches the cache
and which is still the list tail (`item_next = 0`). -/
def mraOk (st : WrState) (c : ChunkDesc) (l : ListId) : Prop :=
  c.offset ≠ 0 →
    st.file c.offset = some c.hdr ∧ st.listOf c.offset = some l ∧
      c.hdr.item_next = 0

/-- Bookkeeping facts about the file region: positive position, all chunks
below it. -/
def coreWF (st : WrState) : Prop :=
  32 ≤ st.pos ∧ (∀ o h, st.file o = some h → o ≠ 0 ∧ o < st.pos) ∧
    chunkLinkInv st

/-- Well-formedness of a writer state: the file invariant plus validity of
every MRA slot the writer keeps, and the fact that an undefined signal has
no head chunks yet (which keeps the in-place branch of `track_wr_head`
unreachable). -/
structure WF (st : WrState) : Prop where
  core : coreWF st
  srcMra : mraOk st st.sourceMra .sources
  sigMra : mraOk st st.signalMra .signals
  udMra : mraOk st st.userDataMra .userData
  dataMra : ∀ sid tt,
    mraOk st ((st.signalInfo sid).tracks tt).dataC (.trackData sid tt)
  headZero : ∀ sid, (st.signalInfo sid).chunkDef.offset = 0 →
    ∀ tt, ((st.signalInfo sid).tracks tt).headC.offset = 0

/-- The invariant predicates only read `pos`, `file` and `listOf`, so a
state equal on those fields satisfies them equally. -/
theorem coreWF_congr (st st' : WrState) (hpos : st'.pos = st.pos)
    (hfile : st'.file = st.file) (hlist : st'.listOf = st.listOf)
    (h : coreWF st) : coreWF st' := by
  unfold coreWF chunkLinkInv at h ⊢
  rw [hpos, hfile, hlist]
  exact h

/-- Same for `mraOk`. -/
theorem mraOk_congr (st st' : WrState) (c : ChunkDesc) (l : ListId)
    (hfile : st'.file = st.file) (hlist : st'.listOf = st.listOf)
    (h : mraOk st c l) : mraOk st' c l := by
  unfold mraOk at h ⊢
  rw [hfile, hlist]
  exact h

/-- Pointwise file lemma for `raw_chunk_wr`. -/
theorem raw_chunk_wr_file_at (st : WrState) (l : ListId) (hdr : ChunkHdr)
    (o : Nat) : (raw_chunk_wr st l hdr).st.file o =
      if o = st.pos then some hdr else st.file o := rfl

/-- Pointwise list lemma for `raw_chunk_wr`. -/
theorem raw_chunk_wr_listOf_at (st : WrState) (l : ListId) (hdr : ChunkHdr)
    (o : Nat) : (raw_chunk_wr st l hdr).st.listOf o =
      if o = st.pos then some l else st.listOf o := rfl

/-- Pointwise file lemma for `wr_and_link`. -/
theorem wr_and_link_file_at (st : WrState) (l : ListId) (mra : ChunkDesc)
    (hdr : ChunkHdr) (o : Nat) : (wr_and_link st l mra hdr).st.file o =
      if mra.offset ≠ 0 ∧ o = mra.offset then
        some { mra.hdr with item_next := st.pos }
      else if o = st.pos then some hdr else st.file o := by
  rw [wr_and_link_file]

/-- Pointwise list lemma for `wr_and_link`. -/
theorem wr_and_link_listOf_at (st : WrState) (l : ListId) (mra : ChunkDesc)
    (hdr : ChunkHdr) (o : Nat) : (wr_and_link st l mra hdr).st.listOf o =
      if o = st.pos then some l else st.listOf o := by
  rw [wr_and_link_listOf]

/-- Preservation of the file invariant by a raw chunk write that does not
link (the first-time branch of `track_wr_head`): the new chunk has
`item_next = 0`, nothing points at it, and every existing MRA stays
valid. -/
theorem raw_chunk_wr_pres (st : WrState) (l : ListId) (hdr : ChunkHdr)
    (hn : hdr.item_next = 0) (hc : coreWF st) :
    coreWF (raw_chunk_wr st l hdr).st ∧
    (∀ c' l', mraOk st c' l' → mraOk (raw_chunk_wr st l hdr).st c' l') := by
  obtain ⟨hpos, hdom, hlink⟩ := hc
  refine ⟨⟨by rw [raw_chunk_wr_pos]; omega, ?_, ?_⟩, ?_⟩
  · intro o h hf
    rw [raw_chunk_wr_file_at] at hf
    rw [raw_chunk_wr_pos]
    by_cases ho : o = st.pos
    · subst ho; constructor <;> omega
    · rw [if_neg ho] at hf
      have := hdom o h hf
      constructor <;> omega
  · intro o h hf hnext
    rw [raw_chunk_wr_file_at] at hf
    by_cases ho : o = st.pos
    · rw [if_pos ho] at hf
      cases hf
      exact absurd hn hnext
    · rw [if_neg ho] at hf
      obtain ⟨h', hf', hp', hl'⟩ := hlink o h hf hnext
      have hlt := (hdom _ _ hf').2
      have hne : h.item_next ≠ st.pos := by omega
      refine ⟨h', ?_, hp', ?_⟩
      · rw [raw_chunk_wr_file_at, if_neg hne]; exact hf'
      · rw [raw_chunk_wr_listOf_at, raw_chunk_wr_listOf_at,
          if_neg hne, if_neg ho]
        exact hl'
  · intro c' l' hm ho
    obtain ⟨hf, hl, hz⟩ := hm ho
    have hlt := (hdom _ _ hf).2
    have hne : c'.offset ≠ st.pos := by omega
    refine ⟨?_, ?_, hz⟩
    · rw [raw_chunk_wr_file_at, if_neg hne]; exact hf
    · rw [raw_chunk_wr_listOf_at, if_neg hne]; exact hl

/-- Preservation of the file invariant by a linked append (`jls_raw_wr`
followed by `update_mra`): the patched tail and the fresh chunk satisfy the
back-link property, the fresh descriptor is a valid MRA for its list, and
every MRA of every other list stays valid. -/
theorem wr_and_link_pres (st : WrState) (l : ListId) (mra : ChunkDesc)
    (hdr : ChunkHdr) (hn : hdr.item_next = 0) (hp : hdr.item_prev = mra.offset)
    (hc : coreWF st) (hm : mraOk st mra l) :
    coreWF (wr_and_link st l mra hdr).st ∧
    mraOk (wr_and_link st l mra hdr).st ⟨hdr, st.pos⟩ l ∧
    (∀ c' l', l' ≠ l → mraOk st c' l' →
      mraOk (wr_and_link st l mra hdr).st c' l') := by
  obtain ⟨hpos, hdom, hlink⟩ := hc
  have hposeq := wr_and_link_pos st l mra hdr
  by_cases hmo : mra.offset ≠ 0
  case pos =>
    obtain ⟨hmf, hml, hmz⟩ := hm hmo
    have hmlt := (hdom _ _ hmf).2
    have hmne : mra.offset ≠ st.pos := by omega
    have hposne : ¬ st.pos = mra.offset := fun hx => hmne hx.symm
    refine ⟨⟨by omega, ?_, ?_⟩, ?_, ?_⟩
    · -- domain bound
      intro o h hf
      rw [wr_and_link_file_at] at hf
      rw [hposeq]
      by_cases h1 : mra.offset ≠ 0 ∧ o = mra.offset
      · rw [if_pos h1] at hf
        rw [h1.2]
        constructor <;> omega
      · rw [if_neg h1] at hf
        by_cases h2 : o = st.pos
        · subst h2; constructor <;> omega
        · rw [if_neg h2] at hf
          have := hdom o h hf
          constructor <;> omega
    · -- link invariant
      intro o h hf hnext
      rw [wr_and_link_file_at] at hf
      by_cases h1 : mra.offset ≠ 0 ∧ o = mra.offset
      · rw [if_pos h1] at hf
        cases hf
        refine ⟨hdr, ?_, ?_, ?_⟩
        · show (wr_and_link st l mra hdr).st.file st.pos = some hdr
          rw [wr_and_link_file_at,
            if_neg (by intro hx; exact hposne hx.2), if_pos rfl]
        · rw [hp, h1.2]
        · rw [wr_and_link_listOf_at, wr_and_link_listOf_at, if_pos rfl,
            if_neg (h1.2 ▸ hmne), h1.2, hml]
      · rw [if_neg h1] at hf
        by_cases h2 : o = st.pos
        · rw [if_pos h2] at hf
          cases hf
          exact absurd hn hnext
        · rw [if_neg h2] at hf
          obtain ⟨h', hf', hp', hl'⟩ := hlink o h hf hnext
          have hlt := (hdom _ _ hf').2
          have hnp : h.item_next ≠ st.pos := by omega
          by_cases h3 : h.item_next = mra.offset
          · have hfeq : h' = mra.hdr := by
              rw [h3, hmf] at hf'
              exact (Option.some.inj hf').symm
            refine ⟨{ mra.hdr with item_next := st.pos }, ?_, ?_, ?_⟩
            · rw [wr_and_link_file_at, if_pos ⟨hmo, h3⟩]
            · show mra.hdr.item_prev = o
              rw [← hfeq]; exact hp'
            · rw [wr_and_link_listOf_at, wr_and_link_listOf_at,
                if_neg hnp, if_neg h2]
              exact hl'
          · refine ⟨h', ?_, hp', ?_⟩
            · rw [wr_and_link_file_at,
                if_neg (fun hx => h3 hx.2), if_neg hnp]
              exact hf'
            · rw [wr_and_link_listOf_at, wr_and_link_listOf_at,
                if_neg hnp, if_neg h2]
              exact hl'
    · -- new MRA valid
      intro _
      refine ⟨?_, ?_, hn⟩
      · rw [wr_and_link_file_at,
          if_neg (by intro hx; exact hposne hx.2), if_pos rfl]
      · rw [wr_and_link_listOf_at, if_pos rfl]
    · -- other lists preserved
      intro c' l' hll hm' ho'
      obtain ⟨hf', hl', hz'⟩ := hm' ho'
      have hlt' := (hdom _ _ hf').2
      have hnp' : c'.offset ≠ st.pos := by omega
      have hnm : c'.offset ≠ mra.offset := by
        intro hx
        rw [hx, hml] at hl'
        exact hll (Option.some.inj hl').symm
      refine ⟨?_, ?_, hz'⟩
      · rw [wr_and_link_file_at,
          if_neg (fun hx => hnm hx.2), if_neg hnp']
        exact hf'
      · rw [wr_and_link_listOf_at, if_neg hnp']; exact hl'
  case neg =>
    push_neg at hmo
    have hsimp : ∀ (o : Nat), (wr_and_link st l mra hdr).st.file o =
        if o = st.pos then some hdr else st.file o := by
      intro o
      rw [wr_and_link_file_at, if_neg (by intro hx; exact hx.1 hmo)]
    refine ⟨⟨by omega, ?_, ?_⟩, ?_, ?_⟩
    · intro o h hf
      rw [hsimp] at hf
      rw [hposeq]
      by_cases h2 : o = st.pos
      · subst h2; constructor <;> omega
      · rw [if_neg h2] at hf
        have := hdom o h hf
        constructor <;> omega
    · intro o h hf hnext
      rw [hsimp] at hf
      by_cases h2 : o = st.pos
      · rw [if_pos h2] at hf
        cases hf
        exact absurd hn hnext
      · rw [if_neg h2] at hf
        obtain ⟨h', hf', hp', hl'⟩ := hlink o h hf hnext
        have hlt := (hdom _ _ hf').2
        have hnp : h.item_next ≠ st.pos := by omega
        refine ⟨h', ?_, hp', ?_⟩
        · rw [hsimp, if_neg hnp]; exact hf'
        · rw [wr_and_link_listOf_at, wr_and_link_listOf_at,
            if_neg hnp, if_neg h2]
          exact hl'
    · intro _
      refine ⟨?_, ?_, hn⟩
      · rw [hsimp, if_pos rfl]
      · rw [wr_and_link_listOf_at, if_pos rfl]
    · intro c' l' _ hm' ho'
      obtain ⟨hf', hl', hz'⟩ := hm' ho'
      have hlt' := (hdom _ _ hf').2
      have hnp' : c'.offset ≠ st.pos := by omega
      refine ⟨?_, ?_, hz'⟩
      · rw [hsimp, if_neg hnp']; exact hf'
      · rw [wr_and_link_listOf_at, if_neg hnp']; exact hl'

/-- A successful `jls_wr_user_data` preserves well-formedness. -/
theorem wf_jls_wr_user_data (st : WrState) (cm t : Nat) (n : Bool)
    (d : List Nat) (sz : Nat) (st' : WrState) (wf : WF st)
    (h : jls_wr_user_data st cm t n d sz = .ok st') : WF st' := by
  unfold jls_wr_user_data at h
  by_cases h1 : sz &&& (if n then 1 else 0) ≠ 0
  · rw [if_pos h1] at h; exact Except.noConfusion h
  rw [if_neg h1] at h
  dsimp only at h
  split at h
  · exact Except.noConfusion h
  case _ ds hds =>
    injection h with h
    subst h
    obtain ⟨hcore, hnew, hothers⟩ := wr_and_link_pres st .userData
      st.userDataMra
      { item_next := 0, item_prev := st.userDataMra.offset,
        tag := JLS_TAG_USER_DATA,
        chunk_meta :=
          (if cm &&& 0xf000 ≠ 0 then cm &&& 0x0fff else cm) ||| t <<< 12,
        payload_length := ds, payload_prev_length := st.payloadPrevLength }
      rfl rfl wf.core wf.udMra
    refine ⟨coreWF_congr _ _ rfl rfl rfl hcore, ?_, ?_, ?_, ?_, ?_⟩
    · refine mraOk_congr _ _ _ _ rfl rfl ?_
      dsimp only
      rw [wr_and_link_sourceMra]
      exact hothers st.sourceMra .sources (by decide) wf.srcMra
    · refine mraOk_congr _ _ _ _ rfl rfl ?_
      dsimp only
      rw [wr_and_link_signalMra]
      exact hothers st.signalMra .signals (by decide) wf.sigMra
    · refine mraOk_congr _ _ _ _ rfl rfl ?_
      dsimp only
      rw [wr_and_link_mra]
      exact hnew
    · intro sid tt
      refine mraOk_congr _ _ _ _ rfl rfl ?_
      dsimp only
      rw [wr_and_link_signalInfo]
      exact hothers _ (.trackData sid tt) (by intro hx; cases hx) (wf.dataMra sid tt)
    · intro sid hcd tt
      dsimp only at hcd ⊢
      rw [wr_and_link_signalInfo] at hcd ⊢
      exact wf.headZero sid hcd tt

/-- A successful `jls_wr_source_def` preserves well-formedness. -/
theorem wf_jls_wr_source_def (st : WrState) (source : SourceDefC)
    (st' : WrState) (wf : WF st)
    (h : jls_wr_source_def st source = .ok st') : WF st' := by
  unfold jls_wr_source_def at h
  by_cases h1 : SOURCE_COUNT ≤ source.source_id
  · rw [if_pos h1] at h; exact Except.noConfusion h
  rw [if_neg h1] at h
  by_cases h2 : (st.sourceInfo source.source_id).offset ≠ 0
  · rw [if_pos h2] at h; exact Except.noConfusion h
  rw [if_neg h2] at h
  dsimp only at h
  by_cases h3 : BUFFER_SIZE < sourcePayloadLen source
  · rw [if_pos h3] at h; exact Except.noConfusion h
  rw [if_neg h3] at h
  injection h with h
  subst h
  obtain ⟨hcore, hnew, hothers⟩ := wr_and_link_pres st .sources st.sourceMra
    { item_next := 0, item_prev := st.sourceMra.offset,
      tag := JLS_TAG_SOURCE_DEF, chunk_meta := source.source_id,
      payload_length := sourcePayloadLen source,
      payload_prev_length := st.payloadPrevLength }
    rfl rfl wf.core wf.srcMra
  refine ⟨coreWF_congr _ _ rfl rfl rfl hcore, ?_, ?_, ?_, ?_, ?_⟩
  · refine mraOk_congr _ _ _ _ rfl rfl ?_
    dsimp only
    rw [wr_and_link_mra]
    exact hnew
  · refine mraOk_congr _ _ _ _ rfl rfl ?_
    dsimp only
    rw [wr_and_link_signalMra]
    exact hothers st.signalMra .signals (by decide) wf.sigMra
  · refine mraOk_congr _ _ _ _ rfl rfl ?_
    dsimp only
    rw [wr_and_link_userDataMra]
    exact hothers st.userDataMra .userData (by decide) wf.udMra
  · intro sid tt
    refine mraOk_congr _ _ _ _ rfl rfl ?_
    dsimp only
    rw [wr_and_link_signalInfo]
    exact hothers _ (.trackData sid tt) (by intro hx; cases hx) (wf.dataMra sid tt)
  · intro sid hcd tt
    dsimp only at hcd ⊢
    rw [wr_and_link_signalInfo] at hcd ⊢
    exact wf.headZero sid hcd tt

/-- Function `track_wr_def` never changes head chunk descriptors. -/
theorem track_wr_def_headC (st : WrState) (sid tt i t : Nat) :
    (((track_wr_def st sid tt).signalInfo i).tracks t).headC =
      ((st.signalInfo i).tracks t).headC := by
  simp only [track_wr_def]
  split
  · rfl
  · by_cases hi : i = sid
    · subst hi
      by_cases ht : t = tt <;> simp [ht]
    · simp [hi]

/-- Function `track_wr_def` never changes data MRA descriptors. -/
theorem track_wr_def_dataC (st : WrState) (sid tt i t : Nat) :
    (((track_wr_def st sid tt).signalInfo i).tracks t).dataC =
      ((st.signalInfo i).tracks t).dataC := by
  simp only [track_wr_def]
  split
  · rfl
  · by_cases hi : i = sid
    · subst hi
      by_cases ht : t = tt <;> simp [ht]
    · simp [hi]

/-- Function `track_wr_def` never changes signal-definition chunk
descriptors. -/
theorem track_wr_def_chunkDef (st : WrState) (sid tt i : Nat) :
    ((track_wr_def st sid tt).signalInfo i).chunkDef =
      (st.signalInfo i).chunkDef := by
  simp only [track_wr_def]
  split
  · rfl
  · by_cases hi : i = sid <;> simp [hi]

/-- Function `track_wr_head` changes no head descriptor other than the one
it writes. -/
theorem track_wr_head_headC (st : WrState) (sid tt i t : Nat)
    (hne : i ≠ sid ∨ t ≠ tt) :
    (((track_wr_head st sid tt).signalInfo i).tracks t).headC =
      ((st.signalInfo i).tracks t).headC := by
  simp only [track_wr_head]
  split
  · by_cases hi : i = sid
    · subst hi
      have ht : t ≠ tt := hne.resolve_left (by simp)
      simp [ht]
    · simp [hi]
  · simp [update_mra_signalInfo]

/-- Function `track_wr_head` never changes data MRA descriptors. -/
theorem track_wr_head_dataC (st : WrState) (sid tt i t : Nat) :
    (((track_wr_head st sid tt).signalInfo i).tracks t).dataC =
      ((st.signalInfo i).tracks t).dataC := by
  simp only [track_wr_head]
  split
  · by_cases hi : i = sid
    · subst hi
      by_cases ht : t = tt <;> simp [ht]
    · simp [hi]
  · simp [update_mra_signalInfo]

/-- Function `track_wr_head` never changes signal-definition chunk
descriptors. -/
theorem track_wr_head_chunkDef (st : WrState) (sid tt i : Nat) :
    ((track_wr_head st sid tt).signalInfo i).chunkDef =
      (st.signalInfo i).chunkDef := by
  simp only [track_wr_head]
  split
  · by_cases hi : i = sid <;> simp [hi]
  · simp [update_mra_signalInfo]

/-- Function `track_wr_def` preserves well-formedness (either it skips, or
it is a linked append to the signal list plus a def-descriptor store). -/
theorem wf_track_wr_def (st : WrState) (sid tt : Nat) (wf : WF st) :
    WF (track_wr_def st sid tt) := by
  have hhead := track_wr_def_headC st sid tt
  have hdata := track_wr_def_dataC st sid tt
  have hcd := track_wr_def_chunkDef st sid tt
  simp only [track_wr_def] at hhead hdata hcd ⊢
  split at hdata
  case _ hskip =>
    rw [if_pos hskip]
    exact wf
  case _ hskip =>
    rw [if_neg hskip] at hhead hcd ⊢
    obtain ⟨hcore, hnew, hothers⟩ := wr_and_link_pres st .signals st.signalMra
      { item_next := 0, item_prev := st.signalMra.offset,
        tag := trackTag tt TRACK_CHUNK_DEF, chunk_meta := sid,
        payload_length := 0, payload_prev_length := st.payloadPrevLength }
      rfl rfl wf.core wf.sigMra
    refine ⟨coreWF_congr _ _ rfl rfl rfl hcore, ?_, ?_, ?_, ?_, ?_⟩
    · refine mraOk_congr _ _ _ _ rfl rfl ?_
      dsimp only
      rw [wr_and_link_sourceMra]
      exact hothers st.sourceMra .sources (by decide) wf.srcMra
    · refine mraOk_congr _ _ _ _ rfl rfl ?_
      dsimp only
      rw [wr_and_link_mra]
      exact hnew
    · refine mraOk_congr _ _ _ _ rfl rfl ?_
      dsimp only
      rw [wr_and_link_userDataMra]
      exact hothers st.userDataMra .userData (by decide) wf.udMra
    · intro i t
      refine mraOk_congr _ _ _ _ rfl rfl ?_
      rw [hdata i t]
      exact hothers _ (.trackData i t) (by intro hx; cases hx) (wf.dataMra i t)
    · intro i hcdi t
      rw [hcd i] at hcdi
      rw [hhead i t]
      exact wf.headZero i hcdi t

/-- Function `track_wr_head`, called on a track whose head does not exist
yet and whose signal definition chunk does exist, preserves
well-formedness (it is an unlinked raw write plus a head-descriptor
store). -/
theorem wf_track_wr_head (st : WrState) (sid tt : Nat) (wf : WF st)
    (hz : ((st.signalInfo sid).tracks tt).headC.offset = 0)
    (hcds : (st.signalInfo sid).chunkDef.offset ≠ 0) :
    WF (track_wr_head st sid tt) := by
  have hdata := track_wr_head_dataC st sid tt
  have hcd := track_wr_head_chunkDef st sid tt
  simp only [track_wr_head] at hdata hcd ⊢
  rw [if_pos hz] at hdata hcd ⊢
  obtain ⟨hcore, hpresMra⟩ := raw_chunk_wr_pres st .signals
    { item_next := 0, item_prev := st.signalMra.offset,
      tag := trackTag tt TRACK_CHUNK_HEAD, chunk_meta := sid,
      payload_length := 8 * SUMMARY_LEVEL_COUNT,
      payload_prev_length := st.payloadPrevLength }
    rfl wf.core
  refine ⟨coreWF_congr _ _ rfl rfl rfl hcore, ?_, ?_, ?_, ?_, ?_⟩
  · exact mraOk_congr _ _ _ _ rfl rfl (hpresMra _ .sources wf.srcMra)
  · exact mraOk_congr _ _ _ _ rfl rfl (hpresMra _ .signals wf.sigMra)
  · exact mraOk_congr _ _ _ _ rfl rfl (hpresMra _ .userData wf.udMra)
  · intro i t
    refine mraOk_congr _ _ _ _ rfl rfl ?_
    rw [hdata i t]
    exact hpresMra _ (.trackData i t) (wf.dataMra i t)
  · intro i hcdi t
    rw [hcd i] at hcdi
    by_cases hi : i = sid
    · subst hi
      exact absurd hcdi hcds
    · have := track_wr_head_headC st sid tt i t (Or.inl hi)
      simp only [track_wr_head] at this
      rw [if_pos hz] at this
      rw [this]
      exact wf.headZero i hcdi t

/-- Step `signal_def_write` sets the signal's chunkDef offset to the write
position. -/
theorem signal_def_write_chunkDef (st : WrState) (signal : SignalDefW)
    (dtag stag itag : Nat) :
    ((signal_def_write st signal dtag stag itag).signalInfo
      signal.signal_id).chunkDef.offset = st.pos := by
  simp [signal_def_write]

/-- Step `signal_def_write` does not touch track state. -/
theorem signal_def_write_headC (st : WrState) (signal : SignalDefW)
    (dtag stag itag : Nat) (i t : Nat) :
    (((signal_def_write st signal dtag stag itag).signalInfo i).tracks t).headC
      = ((st.signalInfo i).tracks t).headC := by
  simp only [signal_def_write]
  by_cases hi : i = signal.signal_id <;> simp [hi]

/-- Step `signal_def_write` does not touch data MRA descriptors. -/
theorem signal_def_write_dataC (st : WrState) (signal : SignalDefW)
    (dtag stag itag : Nat) (i t : Nat) :
    (((signal_def_write st signal dtag stag itag).signalInfo i).tracks t).dataC
      = ((st.signalInfo i).tracks t).dataC := by
  simp only [signal_def_write]
  by_cases hi : i = signal.signal_id <;> simp [hi]

/-- Step `signal_def_write` preserves well-formedness. -/
theorem wf_signal_def_write (st : WrState) (signal : SignalDefW)
    (dtag stag itag : Nat) (wf : WF st) :
    WF (signal_def_write st signal dtag stag itag) := by
  have hpos32 := wf.core.1
  obtain ⟨hcore, hnew, hothers⟩ := wr_and_link_pres st .signals st.signalMra
    { item_next := 0, item_prev := st.signalMra.offset,
      tag := JLS_TAG_SIGNAL_DEF, chunk_meta := signal.signal_id,
      payload_length := (signal_def_payload (signal_def_store signal)).length,
      payload_prev_length := st.payloadPrevLength }
    rfl rfl wf.core wf.sigMra
  simp only [signal_def_write]
  refine ⟨coreWF_congr _ _ rfl rfl rfl hcore, ?_, ?_, ?_, ?_, ?_⟩
  · refine mraOk_congr _ _ _ _ rfl rfl ?_
    dsimp only
    rw [wr_and_link_sourceMra]
    exact hothers st.sourceMra .sources (by decide) wf.srcMra
  · refine mraOk_congr _ _ _ _ rfl rfl ?_
    dsimp only
    rw [wr_and_link_mra]
    exact hnew
  · refine mraOk_congr _ _ _ _ rfl rfl ?_
    dsimp only
    rw [wr_and_link_userDataMra]
    exact hothers st.userDataMra .userData (by decide) wf.udMra
  · intro i t
    refine mraOk_congr _ _ _ _ rfl rfl ?_
    dsimp only
    by_cases hi : i = signal.signal_id
    · rw [if_pos hi]
      dsimp only
      rw [hi]
      exact hothers _ (.trackData signal.signal_id t) (by intro hx; cases hx)
        (wf.dataMra signal.signal_id t)
    · rw [if_neg hi, wr_and_link_signalInfo]
      exact hothers _ (.trackData i t) (by intro hx; cases hx)
        (wf.dataMra i t)
  · intro i hcdi t
    dsimp only at hcdi ⊢
    by_cases hi : i = signal.signal_id
    · rw [if_pos hi] at hcdi
      dsimp only at hcdi
      rw [wr_and_link_c] at hcdi
      dsimp only at hcdi
      omega
    · rw [if_neg hi, wr_and_link_signalInfo] at hcdi ⊢
      exact wf.headZero i hcdi t

/-- One `track_wr_def` plus `track_wr_head` pair of `jls_wr_signal_def`:
preserves well-formedness and the remaining zero heads. -/
theorem wf_def_head_pair (s : WrState) (sid tt : Nat) (wfs : WF s)
    (hz : ((s.signalInfo sid).tracks tt).headC.offset = 0)
    (hcds : (s.signalInfo sid).chunkDef.offset ≠ 0) :
    WF (track_wr_head (track_wr_def s sid tt) sid tt) ∧
    (∀ i t, i ≠ sid ∨ t ≠ tt →
      (((track_wr_head (track_wr_def s sid tt) sid tt).signalInfo i).tracks t).headC
        = ((s.signalInfo i).tracks t).headC) ∧
    (∀ i, ((track_wr_head (track_wr_def s sid tt) sid tt).signalInfo i).chunkDef
      = (s.signalInfo i).chunkDef) := by
  have wfd := wf_track_wr_def s sid tt wfs
  have hzd : (((track_wr_def s sid tt).signalInfo sid).tracks tt).headC.offset = 0 := by
    rw [track_wr_def_headC]; exact hz
  have hcdd : ((track_wr_def s sid tt).signalInfo sid).chunkDef.offset ≠ 0 := by
    rw [track_wr_def_chunkDef]; exact hcds
  refine ⟨wf_track_wr_head _ _ _ wfd hzd hcdd, ?_, ?_⟩
  · intro i t hne
    rw [track_wr_head_headC _ _ _ _ _ hne, track_wr_def_headC]
  · intro i
    rw [track_wr_head_chunkDef, track_wr_def_chunkDef]

/-- A successful `jls_wr_signal_def` preserves well-formedness. -/
theorem wf_jls_wr_signal_def (st : WrState) (signal : SignalDefW)
    (st' : WrState) (wf : WF st)
    (h : jls_wr_signal_def st signal = .ok st') : WF st' := by
  dsimp only [jls_wr_signal_def] at h
  by_cases h1 : SIGNAL_COUNT ≤ signal.signal_id
  · rw [if_pos h1] at h; exact Except.noConfusion h
  rw [if_neg h1] at h
  by_cases h2 : SOURCE_COUNT ≤ signal.source_id
  · rw [if_pos h2] at h; exact Except.noConfusion h
  rw [if_neg h2] at h
  by_cases h3 : (st.sourceInfo signal.source_id).offset = 0
  · rw [if_pos h3] at h; exact Except.noConfusion h
  rw [if_neg h3] at h
  by_cases h4 : (st.signalInfo signal.signal_id).chunkDef.offset ≠ 0
  · rw [if_pos h4] at h; exact Except.noConfusion h
  rw [if_neg h4] at h
  push_neg at h4
  by_cases h5 : signal.signal_type ≠ SIGNAL_TYPE_FSR ∧
      signal.signal_type ≠ SIGNAL_TYPE_VSR
  · rw [if_pos h5] at h; exact Except.noConfusion h
  rw [if_neg h5] at h
  by_cases h6 : signal.signal_type = SIGNAL_TYPE_FSR ∧ signal.sample_rate = 0
  · rw [if_pos h6] at h; exact Except.noConfusion h
  rw [if_neg h6] at h
  by_cases h7 : signal.data_type ≠ DATATYPE_F32
  · rw [if_pos h7] at h; exact Except.noConfusion h
  rw [if_neg h7] at h
  by_cases h8 : BUFFER_SIZE < (signal_def_payload (signal_def_store signal)).length
  · rw [if_pos h8] at h; exact Except.noConfusion h
  rw [if_neg h8] at h
  have hz0 := wf.headZero signal.signal_id h4
  have hpos32 := wf.core.1
  by_cases h9 : signal.signal_type = SIGNAL_TYPE_FSR
  · rw [if_pos h9] at h
    injection h with h
    subst h
    have wf1 := wf_signal_def_write st signal JLS_TAG_TRACK_FSR_DATA
      (trackTag TRACK_TYPE_FSR 4) (trackTag TRACK_TYPE_FSR 3) wf
    have hz1 : ∀ t, (((signal_def_write st signal JLS_TAG_TRACK_FSR_DATA
        (trackTag TRACK_TYPE_FSR 4) (trackTag TRACK_TYPE_FSR 3)).signalInfo
        signal.signal_id).tracks t).headC.offset = 0 := by
      intro t
      rw [signal_def_write_headC]
      exact hz0 t
    have hcd1 : ((signal_def_write st signal JLS_TAG_TRACK_FSR_DATA
        (trackTag TRACK_TYPE_FSR 4) (trackTag TRACK_TYPE_FSR 3)).signalInfo
        signal.signal_id).chunkDef.offset ≠ 0 := by
      rw [signal_def_write_chunkDef]
      omega
    obtain ⟨wf3, hz3, hcd3⟩ := wf_def_head_pair _ signal.signal_id
      TRACK_TYPE_FSR wf1 (hz1 TRACK_TYPE_FSR) hcd1
    obtain ⟨wf5, hz5, hcd5⟩ := wf_def_head_pair _ signal.signal_id
      TRACK_TYPE_ANNO wf3
      (by rw [hz3 signal.signal_id TRACK_TYPE_ANNO (Or.inr (by decide))]
          exact hz1 TRACK_TYPE_ANNO)
      (by rw [hcd3 signal.signal_id]; exact hcd1)
    obtain ⟨wf7, _, _⟩ := wf_def_head_pair _ signal.signal_id
      TRACK_TYPE_UTC wf5
      (by rw [hz5 signal.signal_id TRACK_TYPE_UTC (Or.inr (by decide)),
          hz3 signal.signal_id TRACK_TYPE_UTC (Or.inr (by decide))]
          exact hz1 TRACK_TYPE_UTC)
      (by rw [hcd5 signal.signal_id, hcd3 signal.signal_id]; exact hcd1)
    exact wf7
  · rw [if_neg h9] at h
    injection h with h
    subst h
    have wf1 := wf_signal_def_write st signal JLS_TAG_TRACK_VSR_DATA
      (trackTag TRACK_TYPE_VSR 4) (trackTag TRACK_TYPE_VSR 3) wf
    have hz1 : ∀ t, (((signal_def_write st signal JLS_TAG_TRACK_VSR_DATA
        (trackTag TRACK_TYPE_VSR 4) (trackTag TRACK_TYPE_VSR 3)).signalInfo
        signal.signal_id).tracks t).headC.offset = 0 := by
      intro t
      rw [signal_def_write_headC]
      exact hz0 t
    have hcd1 : ((signal_def_write st signal JLS_TAG_TRACK_VSR_DATA
        (trackTag TRACK_TYPE_VSR 4) (trackTag TRACK_TYPE_VSR 3)).signalInfo
        signal.signal_id).chunkDef.offset ≠ 0 := by
      rw [signal_def_write_chunkDef]
      omega
    obtain ⟨wf3, hz3, hcd3⟩ := wf_def_head_pair _ signal.signal_id
      TRACK_TYPE_VSR wf1 (hz1 TRACK_TYPE_VSR) hcd1
    obtain ⟨wf5, _, _⟩ := wf_def_head_pair _ signal.signal_id
      TRACK_TYPE_ANNO wf3
      (by rw [hz3 signal.signal_id TRACK_TYPE_ANNO (Or.inr (by decide))]
          exact hz1 TRACK_TYPE_ANNO)
      (by rw [hcd3 signal.signal_id]; exact hcd1)
    exact wf5

/-- A passing `signal_validate` means the id is in range and the signal is
defined. -/
theorem signal_validate_ok (st : WrState) (sid : Nat) (u : Unit)
    (h : signal_validate st sid = .ok u) :
    sid < SIGNAL_COUNT ∧ (st.signalInfo sid).chunkDef.offset ≠ 0 := by
  unfold signal_validate at h
  by_cases h1 : SIGNAL_COUNT ≤ sid
  · rw [if_pos h1] at h; exact Except.noConfusion h
  rw [if_neg h1] at h
  by_cases h2 : (st.signalInfo sid).chunkDef.offset = 0
  · rw [if_pos h2] at h; exact Except.noConfusion h
  rw [if_neg h2] at h
  exact ⟨by omega, h2⟩

/-- A successful `jls_wr_fsr_f32` preserves well-formedness. -/
theorem wf_jls_wr_fsr_f32 (st : WrState) (sid sa len : Nat) (st' : WrState)
    (wf : WF st) (h : jls_wr_fsr_f32 st sid sa len = .ok st') : WF st' := by
  unfold jls_wr_fsr_f32 at h
  rcases hv : signal_validate st sid with e | u
  · rw [hv] at h; exact Except.noConfusion h
  rw [hv] at h
  have hdef := (signal_validate_ok st sid u hv).2
  dsimp only at h
  split at h
  · -- a data chunk was emitted: linked append into the data list
    injection h with h
    subst h
    obtain ⟨hcore, hnew, hothers⟩ := wr_and_link_pres st
      (.trackData sid (st.signalInfo sid).track_type)
      ((st.signalInfo sid).tracks (st.signalInfo sid).track_type).dataC
      { item_next := 0,
        item_prev := ((st.signalInfo sid).tracks
          (st.signalInfo sid).track_type).dataC.offset,
        tag := (st.signalInfo sid).data_tag, chunk_meta := sid,
        payload_length := (st.signalInfo sid).bufLen + 8,
        payload_prev_length := st.payloadPrevLength }
      rfl rfl wf.core (wf.dataMra sid (st.signalInfo sid).track_type)
    refine ⟨coreWF_congr _ _ rfl rfl rfl hcore, ?_, ?_, ?_, ?_, ?_⟩
    · refine mraOk_congr _ _ _ _ rfl rfl ?_
      dsimp only
      rw [wr_and_link_sourceMra]
      exact hothers st.sourceMra .sources (by intro hx; cases hx) wf.srcMra
    · refine mraOk_congr _ _ _ _ rfl rfl ?_
      dsimp only
      rw [wr_and_link_signalMra]
      exact hothers st.signalMra .signals (by intro hx; cases hx) wf.sigMra
    · refine mraOk_congr _ _ _ _ rfl rfl ?_
      dsimp only
      rw [wr_and_link_userDataMra]
      exact hothers st.userDataMra .userData (by intro hx; cases hx) wf.udMra
    · intro i t
      refine mraOk_congr _ _ _ _ rfl rfl ?_
      dsimp only
      by_cases hi : i = sid
      · rw [if_pos hi]
        dsimp only
        by_cases ht : t = (st.signalInfo sid).track_type
        · rw [if_pos ht]
          dsimp only
          rw [wr_and_link_mra, hi, ht]
          exact hnew
        · rw [if_neg ht, hi]
          refine hothers _ (.trackData sid t) ?_ (wf.dataMra sid t)
          intro hx
          injection hx with hx1 hx2
          exact ht hx2
      · rw [if_neg hi, wr_and_link_signalInfo]
        refine hothers _ (.trackData i t) ?_ (wf.dataMra i t)
        intro hx
        injection hx with hx1 hx2
        exact hi hx1
    · intro i hcdi t
      dsimp only at hcdi ⊢
      by_cases hi : i = sid
      · rw [if_pos hi] at hcdi
        dsimp only at hcdi
        exact absurd hcdi hdef
      · rw [if_neg hi, wr_and_link_signalInfo] at hcdi ⊢
        exact wf.headZero i hcdi t
  · -- nothing emitted: only the buffer offset changes
    injection h with h
    subst h
    refine ⟨coreWF_congr _ _ rfl rfl rfl wf.core, ?_, ?_, ?_, ?_, ?_⟩
    · exact mraOk_congr _ _ _ _ rfl rfl wf.srcMra
    · exact mraOk_congr _ _ _ _ rfl rfl wf.sigMra
    · exact mraOk_congr _ _ _ _ rfl rfl wf.udMra
    · intro i t
      refine mraOk_congr _ _ _ _ rfl rfl ?_
      dsimp only
      by_cases hi : i = sid
      · rw [if_pos hi]
        dsimp only
        rw [hi]
        exact wf.dataMra sid t
      · rw [if_neg hi]
        exact wf.dataMra i t
    · intro i hcdi t
      dsimp only at hcdi ⊢
      by_cases hi : i = sid
      · rw [if_pos hi] at hcdi
        dsimp only at hcdi
        exact absurd hcdi hdef
      · rw [if_neg hi] at hcdi ⊢
        exact wf.headZero i hcdi t

/-- A successful `anno_wr` preserves well-formedness. -/
theorem wf_anno_wr (st : WrState) (sid ts at_ sto : Nat) (d : List Nat)
    (sz : Nat) (st' : WrState) (wf : WF st)
    (h : anno_wr st sid ts at_ sto d sz = .ok st') : WF st' := by
  unfold anno_wr at h
  rcases hv : signal_validate st sid with e | u
  · rw [hv] at h; exact Except.noConfusion h
  rw [hv] at h
  have hdef := (signal_validate_ok st sid u hv).2
  dsimp only at h
  by_cases hA : at_ &&& 0xff ≠ at_
  · rw [if_pos hA] at h; exact Except.noConfusion h
  rw [if_neg hA] at h
  by_cases hS : sto &&& 0xff ≠ sto
  · rw [if_pos hS] at h; exact Except.noConfusion h
  rw [if_neg hS] at h
  split at h
  · exact Except.noConfusion h
  case _ plen hplen =>
    injection h with h
    subst h
    obtain ⟨hcore, hnew, hothers⟩ := wr_and_link_pres st
      (.trackData sid TRACK_TYPE_ANNO)
      ((st.signalInfo sid).tracks TRACK_TYPE_ANNO).dataC
      { item_next := 0,
        item_prev := ((st.signalInfo sid).tracks TRACK_TYPE_ANNO).dataC.offset,
        tag := JLS_TAG_TRACK_ANNO_DATA, chunk_meta := sid,
        payload_length := plen,
        payload_prev_length := st.payloadPrevLength }
      rfl rfl wf.core (wf.dataMra sid TRACK_TYPE_ANNO)
    refine ⟨coreWF_congr _ _ rfl rfl rfl hcore, ?_, ?_, ?_, ?_, ?_⟩
    · refine mraOk_congr _ _ _ _ rfl rfl ?_
      dsimp only
      rw [wr_and_link_sourceMra]
      exact hothers st.sourceMra .sources (by intro hx; cases hx) wf.srcMra
    · refine mraOk_congr _ _ _ _ rfl rfl ?_
      dsimp only
      rw [wr_and_link_signalMra]
      exact hothers st.signalMra .signals (by intro hx; cases hx) wf.sigMra
    · refine mraOk_congr _ _ _ _ rfl rfl ?_
      dsimp only
      rw [wr_and_link_userDataMra]
      exact hothers st.userDataMra .userData (by intro hx; cases hx) wf.udMra
    · intro i t
      refine mraOk_congr _ _ _ _ rfl rfl ?_
      dsimp only
      by_cases hi : i = sid
      · rw [if_pos hi]
        dsimp only
        by_cases ht : t = TRACK_TYPE_ANNO
        · rw [if_pos ht]
          dsimp only
          rw [wr_and_link_mra, hi, ht]
          exact hnew
        · rw [if_neg ht, hi]
          refine hothers _ (.trackData sid t) ?_ (wf.dataMra sid t)
          intro hx
          injection hx with hx1 hx2
          exact ht hx2
      · rw [if_neg hi, wr_and_link_signalInfo]
        refine hothers _ (.trackData i t) ?_ (wf.dataMra i t)
        intro hx
        injection hx with hx1 hx2
        exact hi hx1
    · intro i hcdi t
      dsimp only at hcdi ⊢
      by_cases hi : i = sid
      · rw [if_pos hi] at hcdi
        dsimp only at hcdi
        exact absurd hcdi hdef
      · rw [if_neg hi, wr_and_link_signalInfo] at hcdi ⊢
        exact wf.headZero i hcdi t

/-- A successful `jls_wr_fsr_utc` preserves well-formedness. -/
theorem wf_jls_wr_fsr_utc (st : WrState) (sid sa : Nat) (u : Int)
    (st' : WrState) (wf : WF st)
    (h : jls_wr_fsr_utc st sid sa u = .ok st') : WF st' := by
  unfold jls_wr_fsr_utc at h
  rcases hv : signal_validate_typed st sid SIGNAL_TYPE_FSR with e | uu
  · rw [hv] at h; exact Except.noConfusion h
  rw [hv] at h
  have hval : signal_validate st sid = .ok () := by
    unfold signal_validate_typed at hv
    rcases hv2 : signal_validate st sid with e2 | u2
    · rw [hv2] at hv; exact Except.noConfusion hv
    · rfl
  have hdef := (signal_validate_ok st sid () hval).2
  dsimp only at h
  injection h with h
  subst h
  obtain ⟨hcore, hnew, hothers⟩ := wr_and_link_pres st
    (.trackData sid TRACK_TYPE_UTC)
    ((st.signalInfo sid).tracks TRACK_TYPE_UTC).dataC
    { item_next := 0,
      item_prev := ((st.signalInfo sid).tracks TRACK_TYPE_UTC).dataC.offset,
      tag := JLS_TAG_TRACK_UTC_DATA, chunk_meta := sid,
      payload_length := 16,
      payload_prev_length := st.payloadPrevLength }
    rfl rfl wf.core (wf.dataMra sid TRACK_TYPE_UTC)
  refine ⟨coreWF_congr _ _ rfl rfl rfl hcore, ?_, ?_, ?_, ?_, ?_⟩
  · refine mraOk_congr _ _ _ _ rfl rfl ?_
    dsimp only
    rw [wr_and_link_sourceMra]
    exact hothers st.sourceMra .sources (by intro hx; cases hx) wf.srcMra
  · refine mraOk_congr _ _ _ _ rfl rfl ?_
    dsimp only
    rw [wr_and_link_signalMra]
    exact hothers st.signalMra .signals (by intro hx; cases hx) wf.sigMra
  · refine mraOk_congr _ _ _ _ rfl rfl ?_
    dsimp only
    rw [wr_and_link_userDataMra]
    exact hothers st.userDataMra .userData (by intro hx; cases hx) wf.udMra
  · intro i t
    refine mraOk_congr _ _ _ _ rfl rfl ?_
    dsimp only
    by_cases hi : i = sid
    · rw [if_pos hi]
      dsimp only
      by_cases ht : t = TRACK_TYPE_UTC
      · rw [if_pos ht]
        dsimp only
        rw [wr_and_link_mra, hi, ht]
        exact hnew
      · rw [if_neg ht, hi]
        refine hothers _ (.trackData sid t) ?_ (wf.dataMra sid t)
        intro hx
        injection hx with hx1 hx2
        exact ht hx2
    · rw [if_neg hi, wr_and_link_signalInfo]
      refine hothers _ (.trackData i t) ?_ (wf.dataMra i t)
      intro hx
      injection hx with hx1 hx2
      exact hi hx1
  · intro i hcdi t
    dsimp only at hcdi ⊢
    by_cases hi : i = sid
    · rw [if_pos hi] at hcdi
      dsimp only at hcdi
      exact absurd hcdi hdef
    · rw [if_neg hi, wr_and_link_signalInfo] at hcdi ⊢
      exact wf.headZero i hcdi t

/-- A successful `jls_wr_fsr_annotation` preserves well-formedness. -/
theorem wf_jls_wr_fsr_anno (st : WrState) (sid sa at_ sto : Nat)
    (d : List Nat) (sz : Nat) (st' : WrState) (wf : WF st)
    (h : jls_wr_fsr_anno st sid sa at_ sto d sz = .ok st') : WF st' := by
  unfold jls_wr_fsr_anno at h
  rcases hv : signal_validate_typed st sid SIGNAL_TYPE_FSR with e | u
  · rw [hv] at h; exact Except.noConfusion h
  rw [hv] at h
  exact wf_anno_wr st sid sa at_ sto d sz st' wf h

/-- A successful `jls_wr_vsr_annotation` preserves well-formedness. -/
theorem wf_jls_wr_vsr_anno (st : WrState) (sid ts at_ sto : Nat)
    (d : List Nat) (sz : Nat) (st' : WrState) (wf : WF st)
    (h : jls_wr_vsr_anno st sid ts at_ sto d sz = .ok st') : WF st' := by
  unfold jls_wr_vsr_anno at h
  rcases hv : signal_validate_typed st sid SIGNAL_TYPE_VSR with e | u
  · rw [hv] at h; exact Except.noConfusion h
  rw [hv] at h
  exact wf_anno_wr st sid ts at_ sto d sz st' wf h

/-- Every public writer operation preserves well-formedness (a failing
call leaves the state unchanged). -/
theorem wf_applyOp (st : WrState) (op : WrOp) (wf : WF st) :
    WF (applyOp st op) := by
  cases op with
  | sourceDef s =>
    dsimp only [applyOp]
    rcases hc : jls_wr_source_def st s with e | st'
    · exact wf
    · exact wf_jls_wr_source_def st s st' wf hc
  | signalDef s =>
    dsimp only [applyOp]
    rcases hc : jls_wr_signal_def st s with e | st'
    · exact wf
    · exact wf_jls_wr_signal_def st s st' wf hc
  | userData m t n d sz =>
    dsimp only [applyOp]
    rcases hc : jls_wr_user_data st m t n d sz with e | st'
    · exact wf
    · exact wf_jls_wr_user_data st m t n d sz st' wf hc
  | fsrF32 sid sa len =>
    dsimp only [applyOp]
    rcases hc : jls_wr_fsr_f32 st sid sa len with e | st'
    · exact wf
    · exact wf_jls_wr_fsr_f32 st sid sa len st' wf hc
  | fsrAnno sid sa at_ sto d sz =>
    dsimp only [applyOp]
    rcases hc : jls_wr_fsr_anno st sid sa at_ sto d sz with e | st'
    · exact wf
    · exact wf_jls_wr_fsr_anno st sid sa at_ sto d sz st' wf hc
  | vsrAnno sid ts at_ sto d sz =>
    dsimp only [applyOp]
    rcases hc : jls_wr_vsr_anno st sid ts at_ sto d sz with e | st'
    · exact wf
    · exact wf_jls_wr_vsr_anno st sid ts at_ sto d sz st' wf hc
  | fsrUtc sid sa u =>
    dsimp only [applyOp]
    rcases hc : jls_wr_fsr_utc st sid sa u with e | st'
    · exact wf
    · exact wf_jls_wr_fsr_utc st sid sa u st' wf hc

/-- The state right after opening the raw layer is well-formed. -/
theorem wf_initState : WF initState := by
  refine ⟨⟨le_refl 32, ?_, ?_⟩, ?_, ?_, ?_, ?_, ?_⟩
  · intro o h hf; exact Option.noConfusion hf
  · intro o h hf; exact Option.noConfusion hf
  · intro h0; exact absurd rfl h0
  · intro h0; exact absurd rfl h0
  · intro h0; exact absurd rfl h0
  · intro sid tt h0; exact absurd rfl h0
  · intro sid _ tt; rfl

/-- Running any operation sequence preserves well-formedness. -/
theorem wf_runOps (ops : List WrOp) : ∀ (st : WrState), WF st →
    WF (runOps st ops) := by
  induction ops with
  | nil => intro st wf; exact wf
  | cons op ops ih =>
    intro st wf
    rw [runOps, List.foldl_cons]
    exact ih (applyOp st op) (wf_applyOp st op wf)

/-- Claim C9 (code_bug): the claim asserts the doubly-linked-list invariant
for every list the writer maintains, including each per-track data list
kept through the signal's `tracks[]` entry. The per-signal struct declares
`struct track_info_s tracks[4]`, indexed by `enum jls_track_type_e`
(`src/writer.c:60`), but `jls_wr_signal_def` stores the DATA TAG value into
`info->track_type` (`src/writer.c:428,438`) — `0x22` for FSR, `0x2A` for
VSR — and `jls_wr_fsr_f32` keeps the sample-data list's cached tail
descriptor at `info->tracks[info->track_type]` (`src/writer.c:609,620`):
an out-of-bounds access past the four-element array, aliasing memory
outside the signal's track slots, while the call still reports success. In
the state after open and defining the FSR signal `sigFsr`, the stored track
index equals the FSR data tag `0x22 ≥ TRACKS_COUNT = 4`, so the back-link
bookkeeping for the sample-data list is performed on none of the signal's
own four track slots and the invariant over every per-track data list is
not established by the program. -/
theorem c9_writer_track_index_oob :
    ((runOps initState (openOps ++ [.signalDef sigFsr])).signalInfo 1).track_type
        = JLS_TAG_TRACK_FSR_DATA ∧
    JLS_TAG_TRACK_FSR_DATA = 0x22 ∧
    JLS_TAG_TRACK_VSR_DATA = 0x2A ∧
    TRACKS_COUNT ≤ JLS_TAG_TRACK_FSR_DATA ∧
    TRACKS_COUNT ≤ JLS_TAG_TRACK_VSR_DATA ∧
    (jls_wr_fsr_f32 (runOps initState (openOps ++ [.signalDef sigFsr]))
        1 0 10000).isOk = true := by
  refine ⟨by decide, by decide, by decide, by decide, by decide, by decide⟩

end Jls
